import Mathlib

/-!
Verification of the ghost-agent task runner against its specification.

The development shallowly embeds the Python sources:
  - ghost_agent/tools/fs_tools.py      (path containment, file tools)
  - ghost_agent/tools/cmd_tools.py     (command containment and execution)
  - ghost_agent/schema.py              (model-response parsing)
  - ghost_agent/memory/store.py        (memory index)
  - ghost_agent/orchestrator.py        (phase state machine)

Pure functions become Lean functions; filesystem state is an explicit
association list from resolved path segments to file contents; the
language-model gateway and process spawning are oracles passed in as
function arguments.  Paths are modelled lexically: the workspace root is
taken as an absolute path string and resolution normalises dot and
dot-dot segments (symlink resolution is outside the model).
-/

namespace GhostAgent

/-! ## Basic string helpers shared by the embedded modules -/

/-- Python str.lower restricted to ASCII, which is all the sources use. -/
def pyLower (s : String) : String :=
  ⟨s.data.map Char.toLower⟩

/-- Infix test on character lists, used for the substring tests below. -/
def charsContain (needle : List Char) : List Char → Bool
  | [] => needle.isEmpty
  | c :: rest => needle.isPrefixOf (c :: rest) || charsContain needle rest

/-- Python membership test `needle in hay` on strings (substring test). -/
def pyIn (needle hay : String) : Bool :=
  charsContain needle.data hay.data

/-- Split a character list on a separator character (like str.split with a
single-character separator, keeping empty pieces). -/
def splitOnChar (sep : Char) : List Char → List (List Char)
  | [] => [[]]
  | c :: rest =>
    if c = sep then [] :: splitOnChar sep rest
    else
      match splitOnChar sep rest with
      | [] => [[c]]
      | h :: t => (c :: h) :: t

/-- Python str.strip with no argument: drop whitespace from both ends. -/
def pyStrip (s : String) : String :=
  ⟨(s.data.dropWhile Char.isWhitespace).reverse.dropWhile Char.isWhitespace |>.reverse⟩

/-- Python str.lstrip with no argument. -/
def pyLstrip (s : String) : String :=
  ⟨s.data.dropWhile Char.isWhitespace⟩

/-- Python str.replace for single characters, used for backslash flipping. -/
def pyReplaceChar (s : String) (a b : Char) : String :=
  ⟨s.data.map (fun c => if c = a then b else c)⟩

/-! ## fs_tools.py: lexical path model and safe_path

A path string is parsed the way pathlib parses a POSIX path: it is
absolute when it starts with a slash, and its parts are the non-empty
segments between slashes with single-dot segments dropped (pathlib drops
them at construction). -/

/-- The parts of a path string, pathlib style: empty and `.` segments are
dropped, `..` segments are kept. -/
def pathParts (s : String) : List String :=
  ((splitOnChar '/' s.data).map (fun cs => (⟨cs⟩ : String))).filter
    (fun t => t ≠ "" && t ≠ ".")

/-- Whether the path string is absolute (POSIX: leading slash). -/
def pathIsAbsolute (s : String) : Bool :=
  match s.data with
  | [] => false
  | c :: _ => c = '/'

/-- Lexical core of Path.resolve on an absolute part list: a `..` pops the
last segment and at the root it stays at the root. -/
def resolveParts (segs : List String) : List String :=
  segs.foldl (fun acc seg => if seg = ".." then acc.dropLast else acc ++ [seg]) []

/-- pathlib PurePath.name: the final part, empty for the root. -/
def pathName (s : String) : String :=
  match (pathParts s).getLast? with
  | some n => n
  | none => ""

/-- The candidate of safe_path before resolution: taken as given when
absolute, otherwise joined onto the resolved root. -/
def candidateParts (rootR : List String) (pathStr : String) : List String :=
  if pathIsAbsolute pathStr then pathParts pathStr
  else rootR ++ pathParts pathStr

/-- Embeds fs_tools.safe_path.  The root is an absolute path string; the
result is the resolved candidate as an absolute part list, or the
containment error.  Mirrors: resolve the root, join the candidate onto it
unless the candidate is absolute, resolve, then require is_relative_to. -/
def safe_path (root pathStr : String) : Except String (List String) :=
  let rootR := resolveParts (pathParts root)
  let candR := resolveParts (candidateParts rootR pathStr)
  if rootR.isPrefixOf candR then .ok candR
  else .error ("Path escapes workspace: " ++ pathStr)

example : safe_path "/ws" "sub/../notes.txt" = .ok ["ws", "notes.txt"] := by rfl

example : (safe_path "/ws" "../outside.txt").isOk = false := by rfl

example : (safe_path "/ws" "/etc/passwd").isOk = false := by rfl

example : safe_path "/ws" "/ws/a/b" = .ok ["ws", "a", "b"] := by rfl

/-- C1: every successful safe_path result sits at or under the resolved
root. -/
theorem safe_path_contained (root pathStr : String) (q : List String)
    (h : safe_path root pathStr = .ok q) :
    (resolveParts (pathParts root)).isPrefixOf q = true := by
  unfold safe_path at h
  dsimp only at h
  split at h
  · cases h
    assumption
  · exact Except.noConfusion h

theorem safe_path_contained_witness :
    (resolveParts (pathParts "/ws")).isPrefixOf ["ws", "notes.txt"] = true :=
  safe_path_contained "/ws" "sub/../notes.txt" ["ws", "notes.txt"] (by rfl)

/-! ## cmd_tools.py: command containment and execution

shlex.split is embedded as a POSIX tokenizer with whitespace splitting:
single quotes are literal, double quotes allow backslash escapes of the
quote and the backslash, a bare backslash escapes the next character, and
an unterminated quote or trailing backslash is an error, matching the
messages shlex raises. -/

/-- shlex whitespace characters. -/
def isShWs (c : Char) : Bool :=
  c = ' ' || c = '\t' || c = '\r' || c = '\n'

/-- The state of the shlex tokenizer between characters: outside quotes
(with the token built so far, `none` when no token has started, so empty
quoted strings still yield a token), pending escape outside quotes,
inside single quotes, inside double quotes, pending escape inside double
quotes. -/
inductive ShlexState where
  | main (cur : Option (List Char))
  | mainEsc (cur : List Char)
  | single (tok : List Char)
  | double (tok : List Char)
  | doubleEsc (tok : List Char)
  deriving Repr, DecidableEq

/-- One pass of the shlex tokenizer over the remaining characters: single
quotes are literal, double quotes let a backslash escape the quote and
the backslash, a bare backslash escapes the next character, and an
unterminated quote or trailing escape is the error shlex raises. -/
def shlexRun : List Char → ShlexState → List (List Char) →
    Except String (List (List Char))
  | [], st, acc =>
    match st with
    | .main (some t) => .ok (acc ++ [t])
    | .main none => .ok acc
    | .mainEsc _ => .error "No escaped character"
    | .single _ => .error "No closing quotation"
    | .double _ => .error "No closing quotation"
    | .doubleEsc _ => .error "No escaped character"
  | c :: rest, st, acc =>
    match st with
    | .main cur =>
      if isShWs c then
        match cur with
        | some t => shlexRun rest (.main none) (acc ++ [t])
        | none => shlexRun rest (.main none) acc
      else if c = '\'' then shlexRun rest (.single (cur.getD [])) acc
      else if c = '"' then shlexRun rest (.double (cur.getD [])) acc
      else if c = '\\' then shlexRun rest (.mainEsc (cur.getD [])) acc
      else shlexRun rest (.main (some (cur.getD [] ++ [c]))) acc
    | .mainEsc cur => shlexRun rest (.main (some (cur ++ [c]))) acc
    | .single tok =>
      if c = '\'' then shlexRun rest (.main (some tok)) acc
      else shlexRun rest (.single (tok ++ [c])) acc
    | .double tok =>
      if c = '"' then shlexRun rest (.main (some tok)) acc
      else if c = '\\' then shlexRun rest (.doubleEsc tok) acc
      else shlexRun rest (.double (tok ++ [c])) acc
    | .doubleEsc tok =>
      if c = '"' || c = '\\' then shlexRun rest (.double (tok ++ [c])) acc
      else shlexRun rest (.double (tok ++ ['\\', c])) acc

/-- Embeds cmd_tools._split_cmd (shlex.split in POSIX mode). -/
def split_cmd (cmd : String) : Except String (List String) :=
  (shlexRun cmd.data (.main none) []).map (List.map fun cs => (⟨cs⟩ : String))

example : split_cmd "rm -rf /" = .ok ["rm", "-rf", "/"] := by rfl

example : split_cmd "python -c \"print(1)\"" = .ok ["python", "-c", "print(1)"] := by rfl

example : (split_cmd "echo \"oops").isOk = false := by rfl

/-- Embeds cmd_tools._extract_exe: the basename of the first shlex token. -/
def extract_exe (cmd : String) : Except String String :=
  match split_cmd cmd with
  | .error e => .error e
  | .ok [] => .error "Empty command"
  | .ok (p :: _) => .ok (pathName p)

example : extract_exe "/usr/bin/python -m pytest" = .ok "python" := by rfl

/-- Embeds cmd_tools._ensure_within_root: same lexical containment as
safe_path, with the cmd_tools error message. -/
def ensure_within_root (root cwd : String) : Except String (List String) :=
  let rootR := resolveParts (pathParts root)
  let candR := resolveParts (candidateParts rootR cwd)
  if rootR.isPrefixOf candR then .ok candR
  else .error ("CWD escapes workspace: " ++ cwd)

/-- cmd_tools.DEFAULT_ALLOWLIST. -/
def DEFAULT_ALLOWLIST : List String :=
  ["python", "python.exe", "pytest", "git", "pip", "ruff"]

/-- cmd_tools.BLOCKLIST_TOKENS. -/
def BLOCKLIST_TOKENS : List String :=
  ["sudo", "rm -rf", "curl", "wget"]

/-- What subprocess.run reports when it returns: exit code and the two
captured streams.  Spawning is an oracle; an exception raised by
subprocess.run (spawn failure, timeout) is the error case. -/
structure SpawnResult where
  returncode : Int
  stdout : String
  stderr : String
  deriving Repr, DecidableEq

/-- The dict run_cmd returns. -/
structure CmdResult where
  returncode : Int
  output : String
  deriving Repr, DecidableEq

/-- A spawn oracle: command string and validated working directory in,
SpawnResult or raised exception out. -/
def SpawnOracle := String → List String → Except String SpawnResult

/-- Output truncation in run_cmd: cut at max_output and append the
truncation marker. -/
def truncateOutput (maxOutput : Nat) (output : String) : String :=
  if output.length > maxOutput then output.take maxOutput ++ "\n...[truncated]"
  else output

/-- Embeds cmd_tools.run_cmd: extract the executable basename, reject a
blocked substring of the lowercased command text, reject an executable
outside the allow-set, contain the working directory, then spawn and
truncate the combined output. -/
def runCmd (cmd cwd root : String) (allowlist : Option (List String))
    (maxOutput : Nat) (spawn : SpawnOracle) : Except String CmdResult :=
  let allow := allowlist.getD DEFAULT_ALLOWLIST
  match extract_exe cmd with
  | .error e => .error e
  | .ok exe =>
    let cmdLower := pyLower cmd
    if BLOCKLIST_TOKENS.any (fun t => pyIn t cmdLower) then
      .error "Command contains blocked token"
    else if !allow.contains exe then
      .error ("Command not allowed: " ++ exe)
    else
      match ensure_within_root root cwd with
      | .error e => .error e
      | .ok safeCwd =>
        match spawn cmd safeCwd with
        | .error e => .error e
        | .ok r => .ok ⟨r.returncode, truncateOutput maxOutput (r.stdout ++ r.stderr)⟩

/-- A spawn oracle that always reports success with empty output, used to
instantiate theorems whose conclusion must not depend on spawning. -/
def spawnNull : SpawnOracle := fun _ _ => .ok ⟨0, "", ""⟩

/-- C2: whenever the executable basename is outside the allow-set or a
blocked substring occurs in the command text, run_cmd rejects the command
with an error, and its result does not depend on the spawn oracle at all
(so nothing is ever spawned for such a command); this covers rm -rf
through the blocked-substring disjunct even when rm is allow-listed. -/
theorem run_cmd_rejects_disallowed (cmd cwd root : String)
    (allow : List String) (maxOut : Nat) (exe : String)
    (hexe : extract_exe cmd = .ok exe)
    (hbad : allow.contains exe = false ∨
      BLOCKLIST_TOKENS.any (fun t => pyIn t (pyLower cmd)) = true)
    (spawn spawn' : SpawnOracle) :
    runCmd cmd cwd root (some allow) maxOut spawn =
        runCmd cmd cwd root (some allow) maxOut spawn' ∧
      (runCmd cmd cwd root (some allow) maxOut spawn).isOk = false := by
  unfold runCmd
  rw [hexe]
  dsimp only [Option.getD]
  by_cases hb : BLOCKLIST_TOKENS.any (fun t => pyIn t (pyLower cmd)) = true
  · rw [hb]
    exact ⟨rfl, rfl⟩
  · rcases hbad with ha | hb'
    · simp only [Bool.not_eq_true] at hb
      rw [hb, ha]
      exact ⟨rfl, rfl⟩
    · exact absurd hb' hb

theorem run_cmd_rejects_disallowed_witness :
    runCmd "rm -rf /" "." "/ws" (some ["rm", "python"]) 4000 spawnNull =
        runCmd "rm -rf /" "." "/ws" (some ["rm", "python"]) 4000 spawnNull ∧
      (runCmd "rm -rf /" "." "/ws" (some ["rm", "python"]) 4000 spawnNull).isOk = false :=
  run_cmd_rejects_disallowed "rm -rf /" "." "/ws" ["rm", "python"] 4000 "rm"
    (by rfl) (Or.inr (by rfl)) spawnNull spawnNull

/-- C5: for an allow-listed, unblocked command with a contained working
directory whose spawn returns an exit status, run_cmd returns the
returncode/output record built from the combined captured output after
truncation, whatever the exit code is (nonzero included); errors can
therefore only come from containment, the allow-list, tokenization, or a
spawn failure. -/
theorem run_cmd_success_shape (cmd cwd root : String)
    (allow : List String) (maxOut : Nat) (exe : String) (d : List String)
    (r : SpawnResult) (spawn : SpawnOracle)
    (hexe : extract_exe cmd = .ok exe)
    (hblock : BLOCKLIST_TOKENS.any (fun t => pyIn t (pyLower cmd)) = false)
    (hallow : allow.contains exe = true)
    (hcwd : ensure_within_root root cwd = .ok d)
    (hspawn : spawn cmd d = .ok r) :
    runCmd cmd cwd root (some allow) maxOut spawn =
      .ok ⟨r.returncode, truncateOutput maxOut (r.stdout ++ r.stderr)⟩ := by
  unfold runCmd
  rw [hexe]
  dsimp only [Option.getD]
  rw [hblock, hallow]
  simp only [Bool.not_true, if_false, if_true, hcwd, hspawn]
  simp

/-- A spawn oracle reporting a failing test run, for the C5 witness. -/
def spawnFailing : SpawnOracle := fun _ _ => .ok ⟨2, "1 failed", ""⟩

theorem run_cmd_success_shape_witness :
    runCmd "pytest -q" "." "/ws" (some DEFAULT_ALLOWLIST) 4000 spawnFailing =
      .ok ⟨2, truncateOutput 4000 ("1 failed" ++ "")⟩ :=
  run_cmd_success_shape "pytest -q" "." "/ws" DEFAULT_ALLOWLIST 4000 "pytest"
    ["ws"] ⟨2, "1 failed", ""⟩ spawnFailing (by rfl) (by rfl) (by rfl) (by rfl)
    (by rfl)

/-! ## schema.py: JSON parsing and the ActionRequest union

json.loads is embedded as a fuel-indexed recursive-descent parser over
the character list (the fuel is the input length plus two, which bounds
the call depth because every recursive call consumes a character first).
Numbers are kept as their lexemes: no schema field is numeric, so only
their well-formedness matters.  Objects collapse duplicate keys with the
last occurrence winning, keeping the first position, as dict does. -/

/-- JSON values as json.loads produces them (numbers as lexemes). -/
inductive Json where
  | null
  | bool (b : Bool)
  | num (lexeme : String)
  | str (s : String)
  | arr (items : List Json)
  | obj (fields : List (String × Json))
  deriving Repr

/-- JSON whitespace skipping. -/
def jskipWs : List Char → List Char :=
  List.dropWhile (fun c => c = ' ' || c = '\t' || c = '\n' || c = '\r')

/-- Hexadecimal digit value, by code point ranges. -/
def hexVal (c : Char) : Option Nat :=
  let n := c.toNat
  if 48 ≤ n && n ≤ 57 then some (n - 48)
  else if 97 ≤ n && n ≤ 102 then some (n - 87)
  else if 65 ≤ n && n ≤ 70 then some (n - 55)
  else none

/-- Four hex digits of a unicode escape. -/
def hex4 : List Char → Option (Nat × List Char)
  | a :: b :: c :: d :: rest => do
    let va ← hexVal a
    let vb ← hexVal b
    let vc ← hexVal c
    let vd ← hexVal d
    some (((va * 16 + vb) * 16 + vc) * 16 + vd, rest)
  | _ => none

/-- Body of a JSON string after the opening quote: strict mode, so raw
control characters are rejected, and surrogate escape pairs combine. -/
def jparseStringBody : Nat → List Char → Except String (String × List Char)
  | 0, _ => .error "Unterminated string starting at"
  | _ + 1, [] => .error "Unterminated string starting at"
  | fuel + 1, c :: rest =>
    if c = '"' then .ok ("", rest)
    else if c = '\\' then
      match rest with
      | [] => .error "Unterminated string starting at"
      | e :: rest2 =>
        let simple : Option Char :=
          if e = '"' then some '"'
          else if e = '\\' then some '\\'
          else if e = '/' then some '/'
          else if e = 'b' then some (Char.ofNat 8)
          else if e = 'f' then some (Char.ofNat 12)
          else if e = 'n' then some '\n'
          else if e = 'r' then some '\r'
          else if e = 't' then some '\t'
          else none
        match simple with
        | some ch =>
          match jparseStringBody fuel rest2 with
          | .ok (s, rem) => .ok (⟨ch :: s.data⟩, rem)
          | .error err => .error err
        | none =>
          if e = 'u' then
            match hex4 rest2 with
            | none => .error "Invalid \\uXXXX escape"
            | some (n, rest3) =>
              if 0xD800 ≤ n && n ≤ 0xDBFF then
                match rest3 with
                | '\\' :: 'u' :: rest4 =>
                  match hex4 rest4 with
                  | some (m, rest5) =>
                    if 0xDC00 ≤ m && m ≤ 0xDFFF then
                      let cp := 0x10000 + (n - 0xD800) * 0x400 + (m - 0xDC00)
                      match jparseStringBody fuel rest5 with
                      | .ok (s, rem) => .ok (⟨Char.ofNat cp :: s.data⟩, rem)
                      | .error err => .error err
                    else
                      match jparseStringBody fuel rest3 with
                      | .ok (s, rem) => .ok (⟨Char.ofNat n :: s.data⟩, rem)
                      | .error err => .error err
                  | none =>
                    match jparseStringBody fuel rest3 with
                    | .ok (s, rem) => .ok (⟨Char.ofNat n :: s.data⟩, rem)
                    | .error err => .error err
                | _ =>
                  match jparseStringBody fuel rest3 with
                  | .ok (s, rem) => .ok (⟨Char.ofNat n :: s.data⟩, rem)
                  | .error err => .error err
              else
                match jparseStringBody fuel rest3 with
                | .ok (s, rem) => .ok (⟨Char.ofNat n :: s.data⟩, rem)
                | .error err => .error err
          else .error "Invalid \\escape"
    else if c.toNat < 0x20 then .error "Invalid control character"
    else
      match jparseStringBody fuel rest with
      | .ok (s, rem) => .ok (⟨c :: s.data⟩, rem)
      | .error err => .error err

/-- JSON digits. -/
def jdigits : List Char → List Char × List Char :=
  List.span Char.isDigit

/-- A JSON number lexeme: optional minus, integer part with no leading
zero, optional fraction, optional exponent. -/
def jparseNumber (cs : List Char) : Except String (String × List Char) :=
  let (neg, cs1) :=
    match cs with
    | '-' :: rest => (['-'], rest)
    | _ => (([] : List Char), cs)
  let (ipart, cs2) := jdigits cs1
  match ipart with
  | [] => .error "Expecting value"
  | d :: ds =>
    if d = '0' && !ds.isEmpty then .error "Expecting value"
    else
      let (fpart, cs3) :=
        match cs2 with
        | '.' :: rest =>
          let (fs, rem) := jdigits rest
          if fs.isEmpty then (([] : List Char), cs2) else ('.' :: fs, rem)
        | _ => (([] : List Char), cs2)
      let (epart, cs4) :=
        match cs3 with
        | e :: rest =>
          if e = 'e' || e = 'E' then
            let (sign, rest2) :=
              match rest with
              | s :: r2 => if s = '+' || s = '-' then ([s], r2) else (([] : List Char), rest)
              | [] => (([] : List Char), rest)
            let (es, rem) := jdigits rest2
            if es.isEmpty then (([] : List Char), cs3) else (e :: sign ++ es, rem)
          else (([] : List Char), cs3)
        | [] => (([] : List Char), cs3)
      .ok (⟨neg ++ ipart ++ fpart ++ epart⟩, cs4)

/-- dict insertion during object parsing: an existing key keeps its
position and takes the new value, a new key is appended. -/
def objInsert (fields : List (String × Json)) (k : String) (v : Json) :
    List (String × Json) :=
  if fields.any (fun f => f.1 = k) then
    fields.map (fun f => if f.1 = k then (k, v) else f)
  else fields ++ [(k, v)]

mutual

/-- Recursive-descent JSON value parser (fuel-indexed). -/
def jparseValue : Nat → List Char → Except String (Json × List Char)
  | 0, _ => .error "json depth"
  | fuel + 1, cs =>
    match jskipWs cs with
    | [] => .error "Expecting value"
    | c :: rest =>
      if c = '{' then
        match jskipWs rest with
        | '}' :: rest2 => .ok (.obj [], rest2)
        | other => jparseMembers fuel other []
      else if c = '[' then
        match jskipWs rest with
        | ']' :: rest2 => .ok (.arr [], rest2)
        | other =>
          match jparseElems fuel other with
          | .ok (items, rem) => .ok (.arr items, rem)
          | .error e => .error e
      else if c = '"' then
        match jparseStringBody (rest.length + 1) rest with
        | .ok (s, rem) => .ok (.str s, rem)
        | .error e => .error e
      else if c = 't' then
        match rest with
        | 'r' :: 'u' :: 'e' :: rest2 => .ok (.bool true, rest2)
        | _ => .error "Expecting value"
      else if c = 'f' then
        match rest with
        | 'a' :: 'l' :: 's' :: 'e' :: rest2 => .ok (.bool false, rest2)
        | _ => .error "Expecting value"
      else if c = 'n' then
        match rest with
        | 'u' :: 'l' :: 'l' :: rest2 => .ok (.null, rest2)
        | _ => .error "Expecting value"
      else
        match jparseNumber (c :: rest) with
        | .ok (lex, rem) => .ok (.num lex, rem)
        | .error e => .error e

/-- Members of a JSON object after the opening brace (non-empty case). -/
def jparseMembers : Nat → List Char → List (String × Json) →
    Except String (Json × List Char)
  | 0, _, _ => .error "json depth"
  | fuel + 1, cs, acc =>
    match jskipWs cs with
    | '"' :: rest =>
      match jparseStringBody (rest.length + 1) rest with
      | .error e => .error e
      | .ok (key, rem) =>
        match jskipWs rem with
        | ':' :: rem2 =>
          match jparseValue fuel rem2 with
          | .error e => .error e
          | .ok (v, rem3) =>
            let acc2 := objInsert acc key v
            match jskipWs rem3 with
            | ',' :: rem4 => jparseMembers fuel rem4 acc2
            | '}' :: rem4 => .ok (.obj acc2, rem4)
            | _ => .error "Expecting delimiter"
        | _ => .error "Expecting colon delimiter"
    | _ => .error "Expecting property name"

/-- Elements of a JSON array after the opening bracket (non-empty case). -/
def jparseElems : Nat → List Char → Except String (List Json × List Char)
  | 0, _ => .error "json depth"
  | fuel + 1, cs =>
    match jparseValue fuel cs with
    | .error e => .error e
    | .ok (v, rem) =>
      match jskipWs rem with
      | ',' :: rem2 =>
        match jparseElems fuel rem2 with
        | .ok (items, rem3) => .ok (v :: items, rem3)
        | .error e => .error e
      | ']' :: rem2 => .ok ([v], rem2)
      | _ => .error "Expecting delimiter"

end

/-- Embeds json.loads: parse one value and require that only whitespace
follows it. -/
def json_loads (s : String) : Except String Json :=
  match jparseValue (s.data.length + 2) s.data with
  | .error e => .error e
  | .ok (v, rem) =>
    match jskipWs rem with
    | [] => .ok v
    | _ => .error "Extra data"

/-- The ActionRequest tagged union of schema.py. -/
inductive Action where
  | write_file (path content : String)
  | read_file (path : String)
  | list_dir (path : String)
  | search_in_files (path query : String)
  | runCmdAction (cmd cwd : String)
  deriving Repr, DecidableEq

/-- schema.ActionResponse: a thought plus an ordered action sequence. -/
structure ActionResponse where
  thought : String
  actions : List Action
  deriving Repr, DecidableEq

/-- Key lookup in a parsed JSON object. -/
def jlookup (fields : List (String × Json)) (k : String) : Option Json :=
  match fields.find? (fun f => f.1 = k) with
  | some f => some f.2
  | none => none

/-- Validation of one action object: the tool literal discriminates, the
remaining required fields must be strings, and extra keys are
forbidden. -/
def validateAction (j : Json) : Except String Action :=
  match j with
  | .obj fields =>
    let keys := fields.map Prod.fst
    match jlookup fields "tool" with
    | some (.str "write_file") =>
      if keys.all (fun k => k = "tool" || k = "path" || k = "content") then
        match jlookup fields "path", jlookup fields "content" with
        | some (.str p), some (.str c) => .ok (.write_file p c)
        | _, _ => .error "field missing or not a string"
      else .error "extra fields forbidden"
    | some (.str "read_file") =>
      if keys.all (fun k => k = "tool" || k = "path") then
        match jlookup fields "path" with
        | some (.str p) => .ok (.read_file p)
        | _ => .error "field missing or not a string"
      else .error "extra fields forbidden"
    | some (.str "list_dir") =>
      if keys.all (fun k => k = "tool" || k = "path") then
        match jlookup fields "path" with
        | some (.str p) => .ok (.list_dir p)
        | _ => .error "field missing or not a string"
      else .error "extra fields forbidden"
    | some (.str "search_in_files") =>
      if keys.all (fun k => k = "tool" || k = "path" || k = "query") then
        match jlookup fields "path", jlookup fields "query" with
        | some (.str p), some (.str q) => .ok (.search_in_files p q)
        | _, _ => .error "field missing or not a string"
      else .error "extra fields forbidden"
    | some (.str "run_cmd") =>
      if keys.all (fun k => k = "tool" || k = "cmd" || k = "cwd") then
        match jlookup fields "cmd", jlookup fields "cwd" with
        | some (.str c), some (.str w) => .ok (.runCmdAction c w)
        | _, _ => .error "field missing or not a string"
      else .error "extra fields forbidden"
    | _ => .error "tool tag missing or unknown"
  | _ => .error "action is not an object"

/-- Validation of a list of action objects. -/
def validateActions : List Json → Except String (List Action)
  | [] => .ok []
  | j :: rest =>
    match validateAction j with
    | .error e => .error e
    | .ok a =>
      match validateActions rest with
      | .error e => .error e
      | .ok as_ => .ok (a :: as_)

/-- pydantic validation of ActionResponse: an object whose keys are only
thought and actions, thought a required string, actions an optional list
of action objects defaulting to empty. -/
def validateActionResponse (j : Json) : Except String ActionResponse :=
  match j with
  | .obj fields =>
    let keys := fields.map Prod.fst
    if keys.all (fun k => k = "thought" || k = "actions") then
      match jlookup fields "thought" with
      | some (.str t) =>
        match jlookup fields "actions" with
        | none => .ok ⟨t, []⟩
        | some (.arr items) =>
          match validateActions items with
          | .ok as_ => .ok ⟨t, as_⟩
          | .error e => .error e
        | some _ => .error "actions is not a list"
      | _ => .error "thought missing or not a string"
    else .error "extra fields forbidden"
  | _ => .error "response is not an object"

/-- Embeds schema.parse_action_response: strip, json.loads, validate,
wrapping both failures in the two ValueError messages. -/
def parse_action_response (text : String) : Except String ActionResponse :=
  match json_loads (pyStrip text) with
  | .error _ => .error "Invalid JSON from model"
  | .ok data =>
    match validateActionResponse data with
    | .error _ => .error "Invalid action schema"
    | .ok r => .ok r

example :
    parse_action_response "\x7b\"thought\": \"x\", \"actions\": []\x7d" =
      .ok ⟨"x", []⟩ := by rfl

example :
    parse_action_response
        "Here is the plan: \x7b\"thought\": \"x\", \"actions\": []\x7d" =
      .error "Invalid JSON from model" := by rfl

example :
    parse_action_response "\x7b\"thought\": \"x\", \"extra\": 1\x7d" =
      .error "Invalid action schema" := by rfl

example :
    parse_action_response
        "\x7b\"thought\": \"x\", \"actions\": [\x7b\"tool\": \"write_file\"\x7d]\x7d" =
      .error "Invalid action schema" := by rfl

/-! ## memory/store.py: note store and token index

The store state is the retrieval index (token to note-relative-paths,
insertion ordered as dict and setdefault keep it) together with the note
files (relative path to content).  Reading and writing note files is the
only I/O the Python class performs, so the file tree under the memory
base directory is carried as an association list. -/

/-- json.dumps string escaping with ensure_ascii, for one character. -/
def jsonEscapeChar (c : Char) : String :=
  if c = '"' then "\\\""
  else if c = '\\' then "\\\\"
  else if c = '\n' then "\\n"
  else if c = '\r' then "\\r"
  else if c = '\t' then "\\t"
  else if c.toNat = 8 then "\\b"
  else if c.toNat = 12 then "\\f"
  else if c.toNat < 0x20 || c.toNat > 0x7e then
    let hex := Nat.toDigits 16 c.toNat
    "\\u" ++ ⟨List.replicate (4 - hex.length) '0'⟩ ++ ⟨hex⟩
  else ⟨[c]⟩

/-- json.dumps string escaping. -/
def jsonEscape (s : String) : String :=
  (s.data.map jsonEscapeChar).foldl (· ++ ·) ""

mutual

/-- json.dumps with the default compact separators. -/
def jsonDumps : Json → String
  | .null => "null"
  | .bool true => "true"
  | .bool false => "false"
  | .num lex => lex
  | .str s => "\"" ++ jsonEscape s ++ "\""
  | .arr items => "[" ++ jsonDumpsItems items ++ "]"
  | .obj fields => "\x7b" ++ jsonDumpsFields fields ++ "\x7d"

/-- Comma-joined array items for jsonDumps. -/
def jsonDumpsItems : List Json → String
  | [] => ""
  | [j] => jsonDumps j
  | j :: rest => jsonDumps j ++ ", " ++ jsonDumpsItems rest

/-- Comma-joined object members for jsonDumps. -/
def jsonDumpsFields : List (String × Json) → String
  | [] => ""
  | [f] => "\"" ++ jsonEscape f.1 ++ "\": " ++ jsonDumps f.2
  | f :: rest =>
    "\"" ++ jsonEscape f.1 ++ "\": " ++ jsonDumps f.2 ++ ", " ++ jsonDumpsFields rest

end

/-- Characters the memory tokenizer keeps: the regex [a-z0-9]+ over the
lowercased text. -/
def isTokenChar (c : Char) : Bool :=
  (97 ≤ c.toNat && c.toNat ≤ 122) || (48 ≤ c.toNat && c.toNat ≤ 57)

/-- Maximal runs of token characters, in text order (re.findall). -/
def tokenRuns : List Char → List Char → List (List Char)
  | [], cur => if cur.isEmpty then [] else [cur]
  | c :: rest, cur =>
    if isTokenChar c then tokenRuns rest (cur ++ [c])
    else if cur.isEmpty then tokenRuns rest []
    else cur :: tokenRuns rest []

/-- Embeds MemoryStore._tokenize: lowercase alphanumeric runs, with the
duplicates re.findall reports kept. -/
def tokenize (text : String) : List String :=
  (tokenRuns (pyLower text).data []).map (fun cs => (⟨cs⟩ : String))

example : tokenize "Task T-1 done, T-1 again" = ["task", "t", "1", "done", "t", "1", "again"] := by rfl

/-- The store state: retrieval index plus note files, both in insertion
order. -/
structure MemoryStore where
  index : List (String × List String)
  notes : List (String × String)
  deriving Repr, DecidableEq

/-- dict.get(token, []) on the index. -/
def idxGet (index : List (String × List String)) (token : String) : List String :=
  match index.find? (fun e => e.1 = token) with
  | some e => e.2
  | none => []

/-- Note file lookup (read_text when the path exists). -/
def noteGet (notes : List (String × String)) (p : String) : Option String :=
  match notes.find? (fun e => e.1 = p) with
  | some e => some e.2
  | none => none

/-- File write: overwrite in place or create at the end. -/
def noteSet (notes : List (String × String)) (p content : String) :
    List (String × String) :=
  if notes.any (fun e => e.1 = p) then
    notes.map (fun e => if e.1 = p then (p, content) else e)
  else notes ++ [(p, content)]

/-- scores[path] = scores.get(path, 0) + 1 on an insertion-ordered
association list. -/
def bumpScore (scores : List (String × Nat)) (p : String) : List (String × Nat) :=
  if scores.any (fun e => e.1 = p) then
    scores.map (fun e => if e.1 = p then (e.1, e.2 + 1) else e)
  else scores ++ [(p, 1)]

/-- The retrieve scoring loop: one bump per query-token occurrence per
indexed path under that token. -/
def computeScores (index : List (String × List String)) (tokens : List String) :
    List (String × Nat) :=
  tokens.foldl (fun sc token => (idxGet index token).foldl bumpScore sc) []

/-- Stable descending insertion by score, matching sorted with a score
key and reverse order (ties keep first-appearance order). -/
def insertRanked (e : String × Nat) : List (String × Nat) → List (String × Nat)
  | [] => [e]
  | f :: rest => if e.2 ≤ f.2 then f :: insertRanked e rest else e :: f :: rest

/-- The ranked candidate list of retrieve. -/
def rankScores (scores : List (String × Nat)) : List (String × Nat) :=
  scores.foldl (fun acc e => insertRanked e acc) []

/-- Embeds MemoryStore.retrieve: tokenize the query, score, rank, cut at
the limit, then keep only candidates whose note file still exists and
return their contents.  The index is read, never written. -/
def retrieve (store : MemoryStore) (query : String) (limit : Nat) : List String :=
  let tokens := tokenize query
  let ranked := rankScores (computeScores store.index tokens)
  (ranked.take limit).filterMap (fun e => noteGet store.notes e.1)

/-- MemoryStore._format_note: metadata header, blank line, trimmed
content, trailing newline. -/
def format_note (metadata : List (String × Json)) (content : String) : String :=
  "---\n" ++
    (metadata.map (fun kv => kv.1 ++ ": " ++ jsonDumps kv.2 ++ "\n")).foldl (· ++ ·) "" ++
    "---\n\n" ++ pyStrip content ++ "\n"

/-- index.setdefault(token, []) followed by a duplicate-free append of the
note path. -/
def idxMerge (index : List (String × List String)) (token relPath : String) :
    List (String × List String) :=
  if index.any (fun e => e.1 = token) then
    index.map (fun e =>
      if e.1 = token then (e.1, if e.2.contains relPath then e.2 else e.2 ++ [relPath])
      else e)
  else index ++ [(token, [relPath])]

/-- MemoryStore._update_index: merge every token of the note into the
index. -/
def update_index (index : List (String × List String)) (relPath content : String) :
    List (String × List String) :=
  (tokenize content).foldl (fun idx token => idxMerge idx token relPath) index

/-- Embeds MemoryStore.write_lesson: format the note, persist it under
lessons/<task_id>.md, then merge its tokens into the index. -/
def write_lesson (store : MemoryStore) (taskId content : String)
    (metadata : List (String × Json)) : MemoryStore :=
  let relPath := "lessons/" ++ taskId ++ ".md"
  let note := format_note metadata content
  { index := update_index store.index relPath note,
    notes := noteSet store.notes relPath note }

/-- The index state of C10: three live notes and two stale entries that
outrank them positionally under the only query token. -/
def staleStore : MemoryStore :=
  { index := [("alpha",
      ["lessons/stale1.md", "lessons/stale2.md", "lessons/a.md",
       "lessons/b.md", "lessons/c.md"])],
    notes := [("lessons/a.md", "alpha one"), ("lessons/b.md", "alpha two"),
      ("lessons/c.md", "alpha three")] }

/-- C10: retrieve cuts the ranked candidates at the limit before checking
note existence, so stale index entries consume result slots: staleStore
has three existing notes indexed under the query token, yet a limit-3
retrieval returns a single result (the stale entries are skipped, and
skipping is all that happens to them). -/
theorem retrieve_truncates_before_existence :
    retrieve staleStore "alpha" 3 = ["alpha one"] ∧
      (retrieve staleStore "alpha" 3).length < 3 ∧
      (["lessons/a.md", "lessons/b.md", "lessons/c.md"].all (fun p =>
        (noteGet staleStore.notes p).isSome &&
          (idxGet staleStore.index "alpha").contains p)) = true := by
  refine ⟨by rfl, by decide, by rfl⟩

/-! ### Lemmas about the index and note association lists -/

/-- Value update in idxMerge. -/
def mergeVal (relPath : String) (v : List String) : List String :=
  if v.contains relPath then v else v ++ [relPath]

theorem mergeVal_of_mem {relPath : String} {v : List String} (h : relPath ∈ v) :
    mergeVal relPath v = v := by
  simp [mergeVal, h]

theorem mergeVal_of_not_mem {relPath : String} {v : List String} (h : relPath ∉ v) :
    mergeVal relPath v = v ++ [relPath] := by
  simp [mergeVal, h]

theorem mem_mergeVal (relPath : String) (v : List String) :
    relPath ∈ mergeVal relPath v := by
  by_cases h : relPath ∈ v
  · rw [mergeVal_of_mem h]; exact h
  · rw [mergeVal_of_not_mem h]; simp

theorem idxMerge_eq (index : List (String × List String)) (token relPath : String) :
    idxMerge index token relPath =
      if index.any (fun e => e.1 = token) then
        index.map (fun e => if e.1 = token then (e.1, mergeVal relPath e.2) else e)
      else index ++ [(token, [relPath])] := by
  simp [idxMerge, mergeVal]

theorem idxGet_idxMerge (index : List (String × List String)) (token relPath t : String) :
    idxGet (idxMerge index token relPath) t =
      if t = token then mergeVal relPath (idxGet index t)
      else idxGet index t := by
  rw [idxMerge_eq]
  by_cases hany : index.any (fun e => e.1 = token) = true
  · rw [if_pos hany]
    unfold idxGet
    rw [List.find?_map]
    have hcomp :
        ((fun e : String × List String => decide (e.1 = t)) ∘
          (fun e : String × List String =>
            if e.1 = token then (e.1, mergeVal relPath e.2) else e)) =
          fun e : String × List String => decide (e.1 = t) := by
      funext e
      by_cases he : e.1 = token <;> simp [he]
    rw [hcomp]
    by_cases ht : t = token
    · subst ht
      rcases List.any_eq_true.mp hany with ⟨e, he, hkey⟩
      have hsome : (index.find? fun e => decide (e.1 = t)).isSome := by
        rw [List.find?_isSome]
        exact ⟨e, he, hkey⟩
      rcases Option.isSome_iff_exists.mp hsome with ⟨e0, he0⟩
      have hkey0 : e0.1 = t := by
        have := List.find?_some he0
        simpa using this
      rw [he0, if_pos rfl]
      simp [he0, hkey0]
    · rw [if_neg ht]
      cases hfind : index.find? fun e => decide (e.1 = t) with
      | none => simp
      | some e0 =>
        have hkey0 : e0.1 = t := by
          have := List.find?_some hfind
          simpa using this
        have hne : ¬ e0.1 = token := fun hc => ht (hkey0 ▸ hc)
        simp [hne]
  · rw [if_neg hany]
    unfold idxGet
    rw [List.find?_append]
    have hnone : index.find? (fun e => decide (e.1 = token)) = none := by
      rw [List.find?_eq_none]
      intro e he
      have := List.any_eq_false.mp (Bool.not_eq_true _ ▸ hany) e he
      simpa using this
    by_cases ht : t = token
    · rw [if_pos ht, ht, hnone]
      simp [List.find?, mergeVal]
    · rw [if_neg ht]
      have hone : ([(token, [relPath])].find? fun e => decide (e.1 = t)) = none := by
        simp only [List.find?]
        rw [decide_eq_false fun hc => ht hc.symm]
      rw [hone, Option.or_none]


theorem idxGet_foldl_idxMerge (relPath t : String) (ts : List String) :
    ∀ index, idxGet (ts.foldl (fun idx token => idxMerge idx token relPath) index) t =
      if t ∈ ts ∧ relPath ∉ idxGet index t then idxGet index t ++ [relPath]
      else idxGet index t := by
  induction ts with
  | nil => intro index; simp
  | cons tok ts ih =>
    intro index
    rw [List.foldl_cons, ih]
    by_cases htok : t = tok
    · subst htok
      rw [idxGet_idxMerge, if_pos rfl]
      by_cases hc : relPath ∈ idxGet index t
      · rw [mergeVal_of_mem hc]
        simp [hc]
      · rw [mergeVal_of_not_mem hc]
        have hc2 : relPath ∈ idxGet index t ++ [relPath] := by simp
        simp [hc, hc2]
    · rw [idxGet_idxMerge, if_neg htok]
      have hiff : (t ∈ ts ∧ relPath ∉ idxGet index t) ↔
          (t ∈ tok :: ts ∧ relPath ∉ idxGet index t) := by
        simp [List.mem_cons, htok]
      rw [if_congr hiff rfl rfl]

theorem allHave_foldl (relPath : String) (ts : List String) :
    ∀ index t, t ∈ ts →
      relPath ∈ idxGet (ts.foldl (fun idx token => idxMerge idx token relPath) index) t := by
  intro index t ht
  rw [idxGet_foldl_idxMerge]
  by_cases hc : relPath ∈ idxGet index t
  · simp [hc]
  · simp [ht, hc]


/-- The invariant driving idempotence: an entry for the token exists and
every entry keyed by it carries the path. -/
def Keyed (index : List (String × List String)) (tok relPath : String) : Prop :=
  (index.any (fun e => e.1 = tok) = true) ∧
    ∀ e ∈ index, e.1 = tok → relPath ∈ e.2

theorem keyed_idxMerge_self (index : List (String × List String)) (tok relPath : String) :
    Keyed (idxMerge index tok relPath) tok relPath := by
  rw [idxMerge_eq]
  by_cases hany : index.any (fun e => e.1 = tok) = true
  · rw [if_pos hany]
    constructor
    · rcases List.any_eq_true.mp hany with ⟨e, he, hkey⟩
      simp only [decide_eq_true_eq] at hkey
      refine List.any_eq_true.mpr ⟨_, List.mem_map_of_mem _ he, ?_⟩
      simp [hkey]
    · intro e he hkey
      rcases List.mem_map.mp he with ⟨e0, he0, heq⟩
      by_cases h0 : e0.1 = tok
      · rw [if_pos h0] at heq
        rw [← heq]
        exact mem_mergeVal relPath e0.2
      · rw [if_neg h0] at heq
        rw [← heq] at hkey
        exact absurd hkey h0
  · rw [if_neg hany]
    constructor
    · refine List.any_eq_true.mpr ⟨(tok, [relPath]), by simp, by simp⟩
    · intro e he hkey
      rcases List.mem_append.mp he with h | h
      · have := List.any_eq_false.mp (Bool.not_eq_true _ ▸ hany) e h
        simp only [decide_eq_true_eq] at this
        exact absurd hkey this
      · simp only [List.mem_singleton] at h
        rw [h]
        simp

theorem keyed_idxMerge_preserve (index : List (String × List String))
    (tok tok' relPath : String) (h : Keyed index tok relPath) :
    Keyed (idxMerge index tok' relPath) tok relPath := by
  obtain ⟨hex, hall⟩ := h
  rw [idxMerge_eq]
  by_cases hany : index.any (fun e => e.1 = tok') = true
  · rw [if_pos hany]
    constructor
    · rcases List.any_eq_true.mp hex with ⟨e, he, hkey⟩
      simp only [decide_eq_true_eq] at hkey
      refine List.any_eq_true.mpr ⟨_, List.mem_map_of_mem _ he, ?_⟩
      by_cases h0 : e.1 = tok'
      · rw [if_pos h0]
        simpa using hkey
      · rw [if_neg h0]
        simpa using hkey
    · intro e he hkey
      rcases List.mem_map.mp he with ⟨e0, he0, heq⟩
      by_cases h0 : e0.1 = tok'
      · rw [if_pos h0] at heq
        rw [← heq] at hkey ⊢
        simp only at hkey
        have hmem := hall e0 he0 hkey
        by_cases hc : relPath ∈ e0.2
        · rw [mergeVal_of_mem hc]; exact hc
        · exact absurd hmem hc
      · rw [if_neg h0] at heq
        rw [← heq] at hkey ⊢
        exact hall e0 he0 hkey
  · rw [if_neg hany]
    constructor
    · rcases List.any_eq_true.mp hex with ⟨e, he, hkey⟩
      exact List.any_eq_true.mpr ⟨e, List.mem_append_left _ he, hkey⟩
    · intro e he hkey
      rcases List.mem_append.mp he with h | h
      · exact hall e h hkey
      · simp only [List.mem_singleton] at h
        rw [h]
        simp

theorem idxMerge_of_keyed (index : List (String × List String)) (tok relPath : String)
    (h : Keyed index tok relPath) : idxMerge index tok relPath = index := by
  obtain ⟨hex, hall⟩ := h
  rw [idxMerge_eq, if_pos hex]
  have hid : ∀ e ∈ index,
      (if e.1 = tok then (e.1, mergeVal relPath e.2) else e) = id e := by
    intro e he
    by_cases h0 : e.1 = tok
    · have hc := hall e he h0
      rw [if_pos h0, mergeVal_of_mem hc]
      rfl
    · rw [if_neg h0]
      rfl
  rw [List.map_congr_left hid, List.map_id]

theorem keyed_foldl_preserve (relPath : String) (ts : List String) :
    ∀ index tok, Keyed index tok relPath →
      Keyed (ts.foldl (fun idx token => idxMerge idx token relPath) index) tok relPath := by
  induction ts with
  | nil => intro index tok h; exact h
  | cons tok' ts ih =>
    intro index tok h
    rw [List.foldl_cons]
    exact ih _ _ (keyed_idxMerge_preserve index tok tok' relPath h)

theorem keyed_foldl_all (relPath : String) (ts : List String) :
    ∀ index tok, tok ∈ ts →
      Keyed (ts.foldl (fun idx token => idxMerge idx token relPath) index) tok relPath := by
  induction ts with
  | nil => intro index tok h; exact absurd h (List.not_mem_nil tok)
  | cons tok' ts ih =>
    intro index tok h
    rw [List.foldl_cons]
    rcases List.mem_cons.mp h with h0 | h0
    · subst h0
      exact keyed_foldl_preserve relPath ts _ tok (keyed_idxMerge_self index tok relPath)
    · exact ih _ tok h0

theorem foldl_idxMerge_of_keyed (relPath : String) (ts : List String) :
    ∀ index, (∀ tok ∈ ts, Keyed index tok relPath) →
      ts.foldl (fun idx token => idxMerge idx token relPath) index = index := by
  induction ts with
  | nil => intro index _; rfl
  | cons tok' ts ih =>
    intro index h
    rw [List.foldl_cons, idxMerge_of_keyed index tok' relPath (h tok' (by simp))]
    exact ih index (fun tok ht => h tok (List.mem_cons_of_mem _ ht))

theorem noteGet_noteSet_self (notes : List (String × String)) (p c : String) :
    noteGet (noteSet notes p c) p = some c := by
  unfold noteSet
  by_cases hany : notes.any (fun e => e.1 = p) = true
  · rw [if_pos hany]
    unfold noteGet
    rw [List.find?_map]
    have hcomp :
        ((fun e : String × String => decide (e.1 = p)) ∘
          (fun e : String × String => if e.1 = p then (p, c) else e)) =
          fun e : String × String => decide (e.1 = p) := by
      funext e
      by_cases he : e.1 = p <;> simp [he]
    rw [hcomp]
    rcases List.any_eq_true.mp hany with ⟨e, he, hkey⟩
    have hsome : (notes.find? fun e => decide (e.1 = p)).isSome := by
      rw [List.find?_isSome]
      exact ⟨e, he, hkey⟩
    rcases Option.isSome_iff_exists.mp hsome with ⟨e0, he0⟩
    have hkey0 : e0.1 = p := by
      have := List.find?_some he0
      simpa using this
    rw [he0]
    simp [hkey0]
  · rw [if_neg hany]
    unfold noteGet
    rw [List.find?_append]
    have hnone : notes.find? (fun e => decide (e.1 = p)) = none := by
      rw [List.find?_eq_none]
      intro e he
      have := List.any_eq_false.mp (Bool.not_eq_true _ ▸ hany) e he
      simpa using this
    rw [hnone]
    simp [List.find?]

theorem noteSet_idem (notes : List (String × String)) (p c : String) :
    noteSet (noteSet notes p c) p c = noteSet notes p c := by
  have hall : ∀ e ∈ noteSet notes p c, e.1 = p → e = (p, c) := by
    unfold noteSet
    by_cases hany : notes.any (fun e => e.1 = p) = true
    · rw [if_pos hany]
      intro e he hkey
      rcases List.mem_map.mp he with ⟨e0, he0, heq⟩
      by_cases h0 : e0.1 = p
      · rw [if_pos h0] at heq
        exact heq.symm
      · rw [if_neg h0] at heq
        rw [← heq] at hkey
        exact absurd hkey h0
    · rw [if_neg hany]
      intro e he hkey
      rcases List.mem_append.mp he with h | h
      · have := List.any_eq_false.mp (Bool.not_eq_true _ ▸ hany) e h
        simp only [decide_eq_true_eq] at this
        exact absurd hkey this
      · simpa using h
  have hany1 : (noteSet notes p c).any (fun e => e.1 = p) = true := by
    unfold noteSet
    by_cases hany : notes.any (fun e => e.1 = p) = true
    · rw [if_pos hany]
      rcases List.any_eq_true.mp hany with ⟨e, he, hkey⟩
      simp only [decide_eq_true_eq] at hkey
      refine List.any_eq_true.mpr ⟨_, List.mem_map_of_mem _ he, ?_⟩
      rw [if_pos hkey]
      simp
    · rw [if_neg hany]
      exact List.any_eq_true.mpr ⟨(p, c), by simp, by simp⟩
  have hgen : ∀ notes1 : List (String × String),
      (notes1.any (fun e => e.1 = p) = true) →
      (∀ e ∈ notes1, e.1 = p → e = (p, c)) →
      noteSet notes1 p c = notes1 := by
    intro notes1 hany hall1
    unfold noteSet
    rw [if_pos hany]
    have hid : ∀ e ∈ notes1, (if e.1 = p then (p, c) else e) = id e := by
      intro e he
      by_cases h0 : e.1 = p
      · rw [if_pos h0, hall1 e he h0]
        rfl
      · rw [if_neg h0]
        rfl
    rw [List.map_congr_left hid, List.map_id]
  exact hgen (noteSet notes p c) hany1 hall

/-- The score invariant when the fresh lesson is the only candidate. -/
def OnlyLesson (rel : String) (sc : List (String × Nat)) : Prop :=
  sc = [] ∨ ∃ k, 1 ≤ k ∧ sc = [(rel, k)]

theorem bumpScore_nil (rel : String) : bumpScore [] rel = [(rel, 1)] := by
  rfl

theorem bumpScore_self (rel : String) (k : Nat) :
    bumpScore [(rel, k)] rel = [(rel, k + 1)] := by
  simp [bumpScore]

theorem onlyLesson_bump (rel : String) (sc : List (String × Nat))
    (h : OnlyLesson rel sc) :
    OnlyLesson rel (bumpScore sc rel) ∧ bumpScore sc rel ≠ [] := by
  rcases h with h | ⟨k, hk, h⟩
  · subst h
    rw [bumpScore_nil]
    exact ⟨Or.inr ⟨1, le_refl 1, rfl⟩, by simp⟩
  · subst h
    rw [bumpScore_self]
    exact ⟨Or.inr ⟨k + 1, by omega, rfl⟩, by simp⟩

theorem computeScores_onlyLesson (index : List (String × List String))
    (rel : String) (tokens : List String)
    (hidx : ∀ t ∈ tokens, idxGet index t = [] ∨ idxGet index t = [rel]) :
    ∀ sc, OnlyLesson rel sc →
      OnlyLesson rel (tokens.foldl (fun sc token => (idxGet index token).foldl bumpScore sc) sc) ∧
      ((sc ≠ [] ∨ ∃ t ∈ tokens, idxGet index t = [rel]) →
        tokens.foldl (fun sc token => (idxGet index token).foldl bumpScore sc) sc ≠ []) := by
  induction tokens with
  | nil =>
    intro sc hsc
    refine ⟨hsc, ?_⟩
    rintro (h | ⟨t, ht, _⟩)
    · simpa using h
    · exact absurd ht (List.not_mem_nil t)
  | cons t ts ih =>
    intro sc hsc
    rw [List.foldl_cons]
    have hidx_ts : ∀ u ∈ ts, idxGet index u = [] ∨ idxGet index u = [rel] :=
      fun u hu => hidx u (List.mem_cons_of_mem _ hu)
    rcases hidx t (by simp) with hnil | hrel
    · rw [hnil]
      simp only [List.foldl_nil]
      obtain ⟨h1, h2⟩ := ih hidx_ts sc hsc
      refine ⟨h1, ?_⟩
      rintro (h | ⟨u, hu, hrel'⟩)
      · exact h2 (Or.inl h)
      · rcases List.mem_cons.mp hu with h0 | h0
        · subst h0
          rw [hnil] at hrel'
          exact absurd hrel'.symm (by simp)
        · exact h2 (Or.inr ⟨u, h0, hrel'⟩)
    · rw [hrel]
      simp only [List.foldl_cons, List.foldl_nil]
      obtain ⟨hP, hne⟩ := onlyLesson_bump rel sc hsc
      obtain ⟨h1, h2⟩ := ih hidx_ts (bumpScore sc rel) hP
      exact ⟨h1, fun _ => h2 (Or.inl hne)⟩

example : jsonDumps (Json.str "a") = "\"a\"" := by rfl

example : format_note [("type", Json.str "lesson")] " body " = "---\ntype: \"lesson\"\n---\n\nbody\n" := by rfl

theorem update_index_get (index : List (String × List String))
    (relPath content t : String) :
    idxGet (update_index index relPath content) t =
      if t ∈ tokenize content ∧ relPath ∉ idxGet index t then
        idxGet index t ++ [relPath]
      else idxGet index t := by
  unfold update_index
  exact idxGet_foldl_idxMerge relPath t (tokenize content) index

/-! ### C8: write-then-retrieve, and merge idempotence -/

/-- A pre-existing index in which three other live notes already carry the
only query token, crowding a fresh lesson out of the default limit. -/
def crowdedStore : MemoryStore :=
  { index := [("alpha", ["lessons/a.md", "lessons/b.md", "lessons/c.md"])],
    notes := [("lessons/a.md", "alpha x"), ("lessons/b.md", "alpha y"),
      ("lessons/c.md", "alpha z")] }

/-- Metadata of the C8 lesson. -/
def freshMeta : List (String × Json) := [("type", Json.str "lesson")]

/-- C8 counterexample: writing a lesson and immediately retrieving with a
query made of one of its tokens does NOT always return the lesson: the
fresh note path is appended after the three existing paths under the
token, the four tie at score one, and the limit-3 cut keeps only the
first three, so the result set misses the lesson content. -/
theorem write_then_retrieve_misses_lesson :
    "alpha" ∈ tokenize (format_note freshMeta "alpha fresh fact") ∧
      retrieve (write_lesson crowdedStore "t9" "alpha fresh fact" freshMeta) "alpha" 3 =
        ["alpha x", "alpha y", "alpha z"] ∧
      ((retrieve (write_lesson crowdedStore "t9" "alpha fresh fact" freshMeta) "alpha" 3).contains
        (format_note freshMeta "alpha fresh fact")) = false := by
  refine ⟨by decide, by rfl, by decide⟩

/-- C8 as amended: when no query token is indexed for any other note (for
instance the first lesson ever written, or a query sharing tokens only
with the fresh lesson), a write followed by a retrieval with a shared
token returns the lesson note among the results; and writing the same
lesson again changes nothing, because merging a token already mapped to
the note path does not duplicate it and the note file is simply
overwritten with the same content. -/
theorem write_lesson_retrieve_roundtrip
    (store : MemoryStore) (taskId content query t0 : String)
    (metadata : List (String × Json)) (limit : Nat)
    (hlim : 1 ≤ limit)
    (hfresh : ∀ t ∈ tokenize query, idxGet store.index t = [])
    (hq : t0 ∈ tokenize query)
    (hshare : t0 ∈ tokenize (format_note metadata content)) :
    ((retrieve (write_lesson store taskId content metadata) query limit).contains
        (format_note metadata content)) = true ∧
      write_lesson (write_lesson store taskId content metadata) taskId content metadata =
        write_lesson store taskId content metadata := by
  have hrel : (write_lesson store taskId content metadata).index =
      update_index store.index ("lessons/" ++ taskId ++ ".md")
        (format_note metadata content) := rfl
  have hnotes : (write_lesson store taskId content metadata).notes =
      noteSet store.notes ("lessons/" ++ taskId ++ ".md")
        (format_note metadata content) := rfl
  constructor
  · unfold retrieve
    dsimp only
    have hidx : ∀ t ∈ tokenize query,
        idxGet (write_lesson store taskId content metadata).index t = [] ∨
          idxGet (write_lesson store taskId content metadata).index t =
            ["lessons/" ++ taskId ++ ".md"] := by
      intro t ht
      rw [hrel, update_index_get, hfresh t ht]
      by_cases hmem : t ∈ tokenize (format_note metadata content)
      · right
        rw [if_pos ⟨hmem, by simp⟩]
        rfl
      · left
        rw [if_neg (fun hc => hmem hc.1)]
    have ht0 : idxGet (write_lesson store taskId content metadata).index t0 =
        ["lessons/" ++ taskId ++ ".md"] := by
      rw [hrel, update_index_get, hfresh t0 hq]
      rw [if_pos ⟨hshare, by simp⟩]
      rfl
    obtain ⟨hP, hne⟩ := computeScores_onlyLesson
      (write_lesson store taskId content metadata).index
      ("lessons/" ++ taskId ++ ".md") (tokenize query) hidx [] (Or.inl rfl)
    have hnonempty := hne (Or.inr ⟨t0, hq, ht0⟩)
    rcases hP with h | ⟨k, hk, h⟩
    · exact absurd h hnonempty
    · have hcs : computeScores (write_lesson store taskId content metadata).index
          (tokenize query) = [("lessons/" ++ taskId ++ ".md", k)] := h
      rw [hcs]
      have hrank : rankScores [("lessons/" ++ taskId ++ ".md", k)] =
          [("lessons/" ++ taskId ++ ".md", k)] := rfl
      rw [hrank]
      obtain ⟨m, rfl⟩ : ∃ m, limit = m + 1 := ⟨limit - 1, by omega⟩
      have htake : List.take (m + 1) [("lessons/" ++ taskId ++ ".md", k)] =
          [("lessons/" ++ taskId ++ ".md", k)] := by simp
      rw [htake]
      have hng := noteGet_noteSet_self store.notes
        ("lessons/" ++ taskId ++ ".md") (format_note metadata content)
      rw [← hnotes] at hng
      simp [List.filterMap, hng]
  · have hidem_notes := noteSet_idem store.notes
      ("lessons/" ++ taskId ++ ".md") (format_note metadata content)
    have hkeyed : ∀ tok ∈ tokenize (format_note metadata content),
        Keyed (update_index store.index ("lessons/" ++ taskId ++ ".md")
          (format_note metadata content)) tok ("lessons/" ++ taskId ++ ".md") := by
      intro tok htok
      unfold update_index
      exact keyed_foldl_all _ _ store.index tok htok
    have hidem_index := foldl_idxMerge_of_keyed ("lessons/" ++ taskId ++ ".md")
      (tokenize (format_note metadata content))
      (update_index store.index ("lessons/" ++ taskId ++ ".md")
        (format_note metadata content)) hkeyed
    have hidem_index2 : update_index (update_index store.index
          ("lessons/" ++ taskId ++ ".md") (format_note metadata content))
          ("lessons/" ++ taskId ++ ".md") (format_note metadata content) =
        update_index store.index ("lessons/" ++ taskId ++ ".md")
          (format_note metadata content) := hidem_index
    show MemoryStore.mk
        (update_index (update_index store.index ("lessons/" ++ taskId ++ ".md")
          (format_note metadata content)) ("lessons/" ++ taskId ++ ".md")
          (format_note metadata content))
        (noteSet (noteSet store.notes ("lessons/" ++ taskId ++ ".md")
          (format_note metadata content)) ("lessons/" ++ taskId ++ ".md")
          (format_note metadata content)) =
      MemoryStore.mk
        (update_index store.index ("lessons/" ++ taskId ++ ".md")
          (format_note metadata content))
        (noteSet store.notes ("lessons/" ++ taskId ++ ".md")
          (format_note metadata content))
    rw [hidem_index2, hidem_notes]

theorem write_lesson_retrieve_roundtrip_witness :
    ((retrieve (write_lesson ⟨[], []⟩ "t1" "alpha beta" freshMeta) "alpha" 3).contains
        (format_note freshMeta "alpha beta")) = true ∧
      write_lesson (write_lesson ⟨[], []⟩ "t1" "alpha beta" freshMeta) "t1" "alpha beta" freshMeta =
        write_lesson ⟨[], []⟩ "t1" "alpha beta" freshMeta :=
  write_lesson_retrieve_roundtrip ⟨[], []⟩ "t1" "alpha beta" "alpha" "alpha"
    freshMeta 3 (by omega) (fun t _ => rfl) (by decide) (by decide)

/-! ## orchestrator.py: the phase state machine

The run loop is embedded as a fuel-indexed step function over the mutable
run state, the workspace file tree, and the memory store.  The language
model and subprocess spawning are oracles in an environment record; the
append-only logs are outside the model (they are write-only sinks).  The
workspace file tree is an association list from resolved absolute path
parts to file contents. -/

/-- The workspace file tree. -/
abbrev FS := List (List String × String)

/-- File lookup at a resolved path. -/
def fsGet (fs : FS) (p : List String) : Option String :=
  match fs.find? (fun e => e.1 = p) with
  | some e => some e.2
  | none => none

/-- File write: overwrite or create. -/
def fsSet (fs : FS) (p : List String) (content : String) : FS :=
  if fs.any (fun e => e.1 = p) then
    fs.map (fun e => if e.1 = p then (p, content) else e)
  else fs ++ [(p, content)]

/-- Path.exists in the file-map model: the path is a file or an ancestor
of one. -/
def pathExists (fs : FS) (p : List String) : Bool :=
  fs.any (fun e => p.isPrefixOf e.1)

/-- Rendering a resolved path the way str(Path) does. -/
def renderPath (p : List String) : String :=
  "/" ++ String.intercalate "/" p

/-- fs_tools.read_file over the file-map model. -/
def read_file (ws p : String) (fs : FS) : Except String String :=
  match safe_path ws p with
  | .error e => .error e
  | .ok q =>
    match fsGet fs q with
    | some c => .ok c
    | none => .error ("[Errno 2] No such file or directory: " ++ renderPath q)

/-- fs_tools.write_file over the file-map model (mkdir of parents is a
no-op for a file map). -/
def write_file (ws p content : String) (fs : FS) : Except String (String × FS) :=
  match safe_path ws p with
  | .error e => .error e
  | .ok q => .ok ("wrote " ++ renderPath q, fsSet fs q content)

/-- Children of a directory in the file map, with a directory flag. -/
def childrenOf (fs : FS) (q : List String) : List (String × Bool) :=
  fs.foldl (fun acc e =>
    if q.isPrefixOf e.1 && decide (q.length < e.1.length) then
      let name := e.1.getD q.length ""
      let isDir := decide (q.length + 1 < e.1.length)
      if acc.any (fun c => c.1 = name) then
        acc.map (fun c => if c.1 = name then (c.1, c.2 || isDir) else c)
      else acc ++ [(name, isDir)]
    else acc) []

/-- Insertion into a name-sorted entry list. -/
def insertEntry (x : String × Bool) : List (String × Bool) → List (String × Bool)
  | [] => [x]
  | y :: rest => if x.1 ≤ y.1 then x :: y :: rest else y :: insertEntry x rest

/-- Name-sorted entries. -/
def sortEntries : List (String × Bool) → List (String × Bool)
  | [] => []
  | x :: rest => insertEntry x (sortEntries rest)

/-- fs_tools.list_dir: sorted child names, directories slash-suffixed,
error when the target is missing or is a plain file. -/
def list_dir (ws p : String) (fs : FS) : Except String (List String) :=
  match safe_path ws p with
  | .error e => .error e
  | .ok q =>
    if !pathExists fs q then .error ("Path not found: " ++ renderPath q)
    else if (fsGet fs q).isSome then
      .error ("Not a directory: " ++ renderPath q)
    else
      .ok ((sortEntries (childrenOf fs q)).map (fun c =>
        c.1 ++ (if c.2 then "/" else "")))

/-- Python str.splitlines restricted to newline separators. -/
def pySplitlines (s : String) : List String :=
  let parts := (splitOnChar '\n' s.data).map (fun cs => (⟨cs⟩ : String))
  match parts.getLast? with
  | some "" => parts.dropLast
  | _ => parts

/-- The path of a file relative to the workspace root. -/
def relTo (root f : List String) : String :=
  String.intercalate "/" (f.drop root.length)

/-- The match records of one file for search_in_files. -/
def fileMatches (ws : List String) (f : List String) (content query : String) :
    List Json :=
  ((pySplitlines content).enum).filterMap (fun il =>
    if pyIn query il.2 then
      some (.obj [("path", .str (relTo ws f)), ("line", .num (toString (il.1 + 1))),
        ("text", .str (pyStrip il.2))])
    else none)

/-- fs_tools.search_in_files: recursive literal line scan below the base
directory, in file-map order. -/
def search_in_files (ws p query : String) (fs : FS) : Except String (List Json) :=
  match safe_path ws p with
  | .error e => .error e
  | .ok base =>
    if !pathExists fs base then .error ("Path not found: " ++ renderPath base)
    else
      .ok (fs.foldl (fun acc e =>
        if base.isPrefixOf e.1 && base.length < e.1.length then
          acc ++ fileMatches (resolveParts (pathParts ws)) e.1 e.2 query
        else acc) [])

/-- Python str.endswith. -/
def pyEndsWith (s suffix : String) : Bool :=
  suffix.data.reverse.isPrefixOf s.data.reverse

/-- Python str.startswith. -/
def pyStartsWith (s needle : String) : Bool :=
  needle.data.isPrefixOf s.data

/-- Orchestrator constraints: the keys the run loop reads. -/
structure Constraints where
  test_cmd : Option String
  iteration_limit : Option Nat
  time_budget_iters : Option Nat
  deriving Repr, DecidableEq

/-- The orchestrator Task dataclass (context and title feed only the
prompt, which is behind the model oracle). -/
structure Task where
  task_id : String
  goal : String
  constraints : Constraints
  deriving Repr, DecidableEq

/-- The Python truthiness chain
get iteration_limit or get time_budget_iters or 8: a missing key and the
integer zero both fall through. -/
def orFalsy : Option Nat → Option Nat
  | some n => if n = 0 then none else some n
  | none => none

/-- The effective iteration limit of the run loop. -/
def effective_iteration_limit (c : Constraints) : Nat :=
  match orFalsy c.iteration_limit with
  | some n => n
  | none =>
    match orFalsy c.time_budget_iters with
    | some n => n
    | none => 8

/-- The goal-mentions-print flag set at the top of the run loop. -/
def goal_prints (goal : String) : Bool :=
  pyIn "print" (pyLower goal) || pyIn "prints" (pyLower goal)

/-- The persisted RunState dict. -/
structure RunState where
  phase : String
  iteration : Nat
  last_result : Option String
  open_items : List String
  files_touched : List String
  deriving Repr, DecidableEq

/-- The tool-result error record. -/
def errObj (e : String) : Json :=
  .obj [("error", .str e)]

/-- Orchestrator._has_errors: a dict result carrying an error key. -/
def has_errors (results : List Json) : Bool :=
  results.any (fun r =>
    match r with
    | .obj fields => fields.any (fun f => f.1 = "error")
    | _ => false)

mutual

/-- json.dumps with indent 2, at a given current indent, as
_format_results produces it. -/
def jsonDumpsInd (ind : Nat) : Json → String
  | .null => "null"
  | .bool true => "true"
  | .bool false => "false"
  | .num lex => lex
  | .str s => "\"" ++ jsonEscape s ++ "\""
  | .arr [] => "[]"
  | .arr (j :: items) =>
    "[\n" ++ ⟨List.replicate (ind + 2) ' '⟩ ++ jsonDumpsInd (ind + 2) j ++
      jsonDumpsIndItems (ind + 2) items ++ "\n" ++ ⟨List.replicate ind ' '⟩ ++ "]"
  | .obj [] => "\x7b\x7d"
  | .obj (f :: fields) =>
    "\x7b\n" ++ ⟨List.replicate (ind + 2) ' '⟩ ++ "\"" ++ jsonEscape f.1 ++ "\": " ++
      jsonDumpsInd (ind + 2) f.2 ++ jsonDumpsIndFields (ind + 2) fields ++
      "\n" ++ ⟨List.replicate ind ' '⟩ ++ "\x7d"

/-- Remaining array items, comma-newline separated. -/
def jsonDumpsIndItems (ind : Nat) : List Json → String
  | [] => ""
  | j :: items =>
    ",\n" ++ ⟨List.replicate ind ' '⟩ ++ jsonDumpsInd ind j ++
      jsonDumpsIndItems ind items

/-- Remaining object members, comma-newline separated. -/
def jsonDumpsIndFields (ind : Nat) : List (String × Json) → String
  | [] => ""
  | f :: fields =>
    ",\n" ++ ⟨List.replicate ind ' '⟩ ++ "\"" ++ jsonEscape f.1 ++ "\": " ++
      jsonDumpsInd ind f.2 ++ jsonDumpsIndFields ind fields

end

/-- Orchestrator._format_results: json.dumps of the result list with
indent 2 (every modelled result is serialisable, so the TypeError
fallback never fires). -/
def format_results (results : List Json) : String :=
  jsonDumpsInd 0 (.arr results)

/-- Orchestrator._merge_touched: append new paths without duplicates. -/
def merge_touched (existing new : List String) : List String :=
  new.foldl (fun merged p => if merged.contains p then merged else merged ++ [p])
    existing

/-- Orchestrator._validate_action_inputs, with the goal-prints flag of
the run. -/
def validate_action_inputs (goalPrints : Bool) (action : Action) : Option String :=
  let is_placeholder := fun (v : String) => pyStrip v = "" || pyStrip v = "..."
  match action with
  | .write_file path content =>
    if is_placeholder path then some "write_file path is missing or placeholder"
    else
      let lower_path := pyLower (pyReplaceChar path '\\' '/')
      if pyEndsWith lower_path "pytest.ini" &&
          !pyStartsWith (pyLower (pyLstrip content)) "[pytest]" then
        some "pytest.ini must start with [pytest]"
      else if pyIn "/test_" lower_path || pyStartsWith lower_path "test_" then
        if !pyIn "def test_" content then
          some "test file must include pytest-style test functions"
        else if pyIn "unittest" content then
          some "test file must use pytest, not unittest"
        else if goalPrints && (!pyIn "capsys" content && !pyIn "capfd" content &&
            !pyIn "subprocess" content) then
          some "tests must capture stdout (capsys/capfd or subprocess)"
        else none
      else none
  | .read_file path =>
    if is_placeholder path then some "read_file path is missing or placeholder"
    else none
  | .list_dir path =>
    if is_placeholder path then some "list_dir path is missing or placeholder"
    else none
  | .search_in_files path query =>
    if is_placeholder path || is_placeholder query then
      some "search_in_files path/query is missing or placeholder"
    else none
  | .runCmdAction cmd cwd =>
    if is_placeholder cmd || is_placeholder cwd then
      some "run_cmd cmd/cwd is missing or placeholder"
    else none

/-- One action of Orchestrator._execute_actions: validation, dispatch,
and the catch-all converting any raised failure into an error record.
Returns the result, the touched paths, and the new file tree. -/
def execute_one (ws : String) (goalPrints : Bool) (spawn : SpawnOracle)
    (fs : FS) (action : Action) : Json × List String × FS :=
  match validate_action_inputs goalPrints action with
  | some msg => (errObj msg, [], fs)
  | none =>
    match action with
    | .write_file path content =>
      match write_file ws path content fs with
      | .ok (msg, fs2) => (.str msg, [path], fs2)
      | .error e => (errObj e, [], fs)
    | .read_file path =>
      match read_file ws path fs with
      | .ok c => (.str c, [], fs)
      | .error e => (errObj e, [], fs)
    | .list_dir path =>
      match list_dir ws path fs with
      | .ok entries => (.arr (entries.map Json.str), [], fs)
      | .error e => (errObj e, [], fs)
    | .search_in_files path query =>
      match search_in_files ws path query fs with
      | .ok found => (.arr found, [], fs)
      | .error e => (errObj e, [], fs)
    | .runCmdAction cmd cwd =>
      match runCmd cmd cwd ws none 4000 spawn with
      | .ok r =>
        (.obj [("returncode", .num (toString r.returncode)), ("output", .str r.output)],
          [], fs)
      | .error e => (errObj e, [], fs)

/-- Orchestrator._execute_actions: best-effort sequential execution,
collecting results and touched paths. -/
def execute_actions (ws : String) (goalPrints : Bool) (spawn : SpawnOracle) :
    List Action → FS → List Json × List String × FS
  | [], fs => ([], [], fs)
  | a :: rest, fs =>
    let r := execute_one ws goalPrints spawn fs a
    let next := execute_actions ws goalPrints spawn rest r.2.2
    (r.1 :: next.1, r.2.1 ++ next.2.1, next.2.2)

/-- The tail of Orchestrator._model_turn: parse, and on a ValueError
yield the invalid_json placeholder with the error text instead of
raising. -/
def model_turn (responseText : String) : ActionResponse × Option String :=
  match parse_action_response responseText with
  | .ok r => (r, none)
  | .error e => (⟨"invalid_json", []⟩, some e)

/-- The run-loop environment: the model gateway (indexed by the number of
turns already taken in the run), the process spawner, and the date used
in lesson metadata. -/
structure Env where
  respond : Nat → String
  spawn : SpawnOracle
  today : String

/-- Observable effects of the loop, in order. -/
inductive Event where
  | stateWrite (s : RunState)
  | memWrite (taskId lesson : String)
  | body (phase : String)
  deriving Repr, DecidableEq

/-- The loop-carried state: run state, workspace tree, memory store, the
feedback text, the number of model turns taken, and the event trace. -/
structure LoopState where
  state : RunState
  fs : FS
  memory : MemoryStore
  feedback : String
  turns : Nat
  events : List Event

/-- Orchestrator._write_memory: lesson text and metadata. -/
def memory_lesson (task : Task) (ws : String) (st : RunState) : String :=
  "Task " ++ task.task_id ++ " completed with result " ++
    (match st.last_result with | some s => s | none => "None") ++ ".\n" ++
    "Files touched: " ++ String.intercalate ", " st.files_touched ++ "\n" ++
    "Workspace: " ++ ws ++ "\n"

/-- The metadata dict _write_memory builds. -/
def memory_metadata (today : String) : List (String × Json) :=
  [("type", .str "lesson"), ("tags", .arr [.str "ghost", .str "task"]),
    ("confidence", .num "0.5"), ("created", .str today)]

/-- Number of phase bodies executed in a trace. -/
def countBody (events : List Event) : Nat :=
  events.countP (fun e => match e with | .body _ => true | _ => false)

/-- Number of memory lessons written in a trace. -/
def countMem (events : List Event) : Nat :=
  events.countP (fun e => match e with | .memWrite _ _ => true | _ => false)

/-- The result of one VERIFY test run: run_cmd through the catch-all that
turns any raised failure into returncode 1 with the message as output. -/
def verify_result (env : Env) (ws : String) (c : String) : CmdResult :=
  match runCmd c "." ws none 4000 env.spawn with
  | .ok r => r
  | .error e => ⟨1, e⟩

/-- The JSON record of a run_cmd result. -/
def cmdResultJson (r : CmdResult) : Json :=
  .obj [("returncode", .num (toString r.returncode)), ("output", .str r.output)]

/-- Embeds Orchestrator._run_loop as one fuel-indexed recursion; the Bool
reports whether the loop broke (rather than running out of fuel).  Each
branch mirrors the corresponding conditional of the Python ladder,
including the iteration-limit cutoff ahead of every phase body, the
INGEST pass-through, and the unknown-phase fallback. -/
def run_loop (env : Env) (task : Task) (ws : String) :
    Nat → LoopState → LoopState × Bool
  | 0, ls => (ls, false)
  | fuel + 1, ls =>
    let limit := effective_iteration_limit task.constraints
    let gp := goal_prints task.goal
    let wsParts := resolveParts (pathParts ws)
    if ls.state.iteration ≥ limit then
      let st := { ls.state with phase := "DONE", last_result := some "iteration_limit" }
      let lesson := memory_lesson task ws st
      ({ ls with
          state := st
          memory := write_lesson ls.memory task.task_id lesson (memory_metadata env.today)
          events := ls.events ++ [.stateWrite st, .memWrite task.task_id lesson] },
        true)
    else if ls.state.phase = "INGEST" then
      let st := { ls.state with phase := "PLAN" }
      run_loop env task ws fuel
        { ls with state := st, events := ls.events ++ [.stateWrite st] }
    else if ls.state.phase = "PLAN" then
      let turn := model_turn (env.respond ls.turns)
      let exec := execute_actions ws gp env.spawn turn.1.actions ls.fs
      let results :=
        match turn.2 with
        | some e => exec.1 ++ [errObj e]
        | none => exec.1
      let touched := merge_touched ls.state.files_touched exec.2.1
      let planOk := pathExists exec.2.2 (wsParts ++ ["plan.md"])
      let next :=
        if has_errors results then
          ({ ls.state with
              phase := "REPAIR"
              last_result := some "plan_failed"
              files_touched := touched
              iteration := ls.state.iteration + 1 },
            format_results results)
        else if !planOk then
          ({ ls.state with
              phase := "REPAIR"
              last_result := some "plan_missing"
              files_touched := touched
              iteration := ls.state.iteration + 1 },
            "plan.md was not created.")
        else
          ({ ls.state with
              phase := "IMPLEMENT"
              last_result := some "plan_ok"
              files_touched := touched
              iteration := ls.state.iteration + 1 },
            ls.feedback)
      run_loop env task ws fuel
        { ls with
            state := next.1
            fs := exec.2.2
            feedback := next.2
            turns := ls.turns + 1
            events := ls.events ++ [.body "PLAN", .stateWrite next.1] }
    else if ls.state.phase = "IMPLEMENT" then
      let turn := model_turn (env.respond ls.turns)
      let exec := execute_actions ws gp env.spawn turn.1.actions ls.fs
      let results :=
        match turn.2 with
        | some e => exec.1 ++ [errObj e]
        | none => exec.1
      let touched := merge_touched ls.state.files_touched exec.2.1
      let next :=
        if has_errors results then
          ({ ls.state with
              phase := "REPAIR"
              last_result := some "implement_failed"
              files_touched := touched
              iteration := ls.state.iteration + 1 },
            format_results results)
        else
          ({ ls.state with
              phase := "VERIFY"
              last_result := some "implement_ok"
              files_touched := touched
              iteration := ls.state.iteration + 1 },
            ls.feedback)
      run_loop env task ws fuel
        { ls with
            state := next.1
            fs := exec.2.2
            feedback := next.2
            turns := ls.turns + 1
            events := ls.events ++ [.body "IMPLEMENT", .stateWrite next.1] }
    else if ls.state.phase = "VERIFY" then
      let next :=
        match task.constraints.test_cmd with
        | some c =>
          let r := verify_result env ws c
          if r.returncode = 0 then
            ({ ls.state with
                phase := "DONE"
                last_result := some "tests_passed"
                iteration := ls.state.iteration + 1 },
              format_results [cmdResultJson r])
          else
            let fb0 := format_results [cmdResultJson r]
            let fb1 :=
              if pyIn "Captured stdout" r.output && pyIn "None !=" r.output then
                fb0 ++ "\nHint: The code is printing output. " ++
                  "Update tests to capture stdout (pytest capsys or subprocess) " ++
                  "instead of expecting return values."
              else fb0
            let fb2 :=
              if pyIn "no tests ran" (pyLower r.output) then
                fb1 ++ "\nHint: Create a pytest test file named test_*.py " ++
                  "with at least one def test_* function."
              else fb1
            ({ ls.state with
                phase := "REPAIR"
                last_result := some "tests_failed"
                iteration := ls.state.iteration + 1 },
              fb2)
        | none =>
          ({ ls.state with
              phase := "DONE"
              last_result := some "no_test_cmd"
              iteration := ls.state.iteration + 1 },
            ls.feedback)
      run_loop env task ws fuel
        { ls with
            state := next.1
            feedback := next.2
            events := ls.events ++ [.body "VERIFY", .stateWrite next.1] }
    else if ls.state.phase = "REPAIR" then
      let turn := model_turn (env.respond ls.turns)
      let exec := execute_actions ws gp env.spawn turn.1.actions ls.fs
      let results :=
        match turn.2 with
        | some e => exec.1 ++ [errObj e]
        | none => exec.1
      let touched := merge_touched ls.state.files_touched exec.2.1
      let next :=
        if has_errors results then
          ({ ls.state with
              phase := "REPAIR"
              last_result := some "repair_failed"
              files_touched := touched
              iteration := ls.state.iteration + 1 },
            format_results results)
        else
          ({ ls.state with
              phase := "VERIFY"
              last_result := some "repair_ok"
              files_touched := touched
              iteration := ls.state.iteration + 1 },
            format_results results)
      run_loop env task ws fuel
        { ls with
            state := next.1
            fs := exec.2.2
            feedback := next.2
            turns := ls.turns + 1
            events := ls.events ++ [.body "REPAIR", .stateWrite next.1] }
    else if ls.state.phase = "DONE" then
      let lesson := memory_lesson task ws ls.state
      ({ ls with
          memory := write_lesson ls.memory task.task_id lesson (memory_metadata env.today)
          events := ls.events ++ [.memWrite task.task_id lesson, .stateWrite ls.state] },
        true)
    else
      let st := { ls.state with phase := "DONE", last_result := some "unknown_phase" }
      ({ ls with state := st, events := ls.events ++ [.stateWrite st] }, true)

/-- The initial RunState of run_task. -/
def initRunState : RunState :=
  { phase := "INGEST"
    iteration := 0
    last_result := none
    open_items := []
    files_touched := [] }

/-- The initial loop state over a given workspace tree and memory
store. -/
def initLoop (fs : FS) (memory : MemoryStore) : LoopState :=
  { state := initRunState
    fs := fs
    memory := memory
    feedback := ""
    turns := 0
    events := [] }

/-- A model oracle that always returns a well-formed empty action
plan. -/
def emptyResp : Nat → String := fun _ => "\x7b\"thought\": \"x\", \"actions\": []\x7d"

/-- A model oracle that writes plan.md on the first turn and nothing on
later turns. -/
def planResp : Nat → String := fun k =>
  if k = 0 then
    "\x7b\"thought\": \"p\", \"actions\": [\x7b\"tool\": \"write_file\", \"path\": \"plan.md\", \"content\": \"steps\"\x7d]\x7d"
  else "\x7b\"thought\": \"x\", \"actions\": []\x7d"

/-- A quiet environment for concrete runs. -/
def env0 : Env := ⟨emptyResp, spawnNull, "2026-01-01"⟩

/-- An environment whose model writes the plan document. -/
def envPlan : Env := ⟨planResp, spawnNull, "2026-01-01"⟩

/-- A task with no declared test command and no iteration limit. -/
def task0 : Task := ⟨"t0", "do it", ⟨none, none, none⟩⟩

example : (run_loop env0 task0 "/ws" 10 (initLoop [] ⟨[], []⟩)).2 = true := by decide

example :
    (run_loop env0 task0 "/ws" 10 (initLoop [] ⟨[], []⟩)).1.state.last_result =
      some "no_test_cmd" := by decide

example :
    countBody (run_loop env0 task0 "/ws" 10 (initLoop [] ⟨[], []⟩)).1.events = 3 := by
  decide

example :
    (run_loop envPlan task0 "/ws" 10 (initLoop [] ⟨[], []⟩)).1.state.files_touched =
      ["plan.md"] := by decide

example :
    fsGet (run_loop envPlan task0 "/ws" 10 (initLoop [] ⟨[], []⟩)).1.fs
      ["ws", "plan.md"] = some "steps" := by decide

example :
    countMem (run_loop envPlan task0 "/ws" 10 (initLoop [] ⟨[], []⟩)).1.events = 1 := by
  decide

/-! ### Event-count bookkeeping -/

@[simp] theorem countBody_nil : countBody [] = 0 := rfl

@[simp] theorem countBody_append (a b : List Event) :
    countBody (a ++ b) = countBody a + countBody b :=
  List.countP_append _ _ _

@[simp] theorem countBody_stateWrite_cons (s : RunState) (l : List Event) :
    countBody (.stateWrite s :: l) = countBody l := by
  simp [countBody, List.countP_cons]

@[simp] theorem countBody_memWrite_cons (t m : String) (l : List Event) :
    countBody (.memWrite t m :: l) = countBody l := by
  simp [countBody, List.countP_cons]

@[simp] theorem countBody_body_cons (p : String) (l : List Event) :
    countBody (.body p :: l) = countBody l + 1 := by
  simp [countBody, List.countP_cons]

@[simp] theorem countMem_nil : countMem [] = 0 := rfl

@[simp] theorem countMem_append (a b : List Event) :
    countMem (a ++ b) = countMem a + countMem b :=
  List.countP_append _ _ _

@[simp] theorem countMem_stateWrite_cons (s : RunState) (l : List Event) :
    countMem (.stateWrite s :: l) = countMem l := by
  simp [countMem, List.countP_cons]

@[simp] theorem countMem_memWrite_cons (t m : String) (l : List Event) :
    countMem (.memWrite t m :: l) = countMem l + 1 := by
  simp [countMem, List.countP_cons]

@[simp] theorem countMem_body_cons (p : String) (l : List Event) :
    countMem (.body p :: l) = countMem l := by
  simp [countMem, List.countP_cons]

/-- The three loop invariants: the iteration counter never decreases, the
number of executed phase bodies equals the iteration growth, and the
counter never exceeds the effective limit once below it. -/
theorem run_loop_invariants (env : Env) (task : Task) (ws : String)
    (fuel : Nat) : ∀ ls : LoopState,
    ls.state.iteration ≤ (run_loop env task ws fuel ls).1.state.iteration ∧
      countBody (run_loop env task ws fuel ls).1.events + ls.state.iteration =
        countBody ls.events + (run_loop env task ws fuel ls).1.state.iteration ∧
      (ls.state.iteration ≤ effective_iteration_limit task.constraints →
        (run_loop env task ws fuel ls).1.state.iteration ≤
          effective_iteration_limit task.constraints) := by
  induction fuel with
  | zero => intro ls; simp [run_loop]
  | succ fuel ih =>
    intro ls
    have step : ∀ (ls' : LoopState) (k : Nat),
        ls'.state.iteration = ls.state.iteration + k →
        countBody ls'.events = countBody ls.events + k →
        (ls.state.iteration ≤ effective_iteration_limit task.constraints →
          ls'.state.iteration ≤ effective_iteration_limit task.constraints) →
        (ls.state.iteration ≤ (run_loop env task ws fuel ls').1.state.iteration ∧
          countBody (run_loop env task ws fuel ls').1.events + ls.state.iteration =
            countBody ls.events + (run_loop env task ws fuel ls').1.state.iteration ∧
          (ls.state.iteration ≤ effective_iteration_limit task.constraints →
            (run_loop env task ws fuel ls').1.state.iteration ≤
              effective_iteration_limit task.constraints)) := by
      intro ls' k hk hcb hbnd
      obtain ⟨m1, m2, m3⟩ := ih ls'
      exact ⟨by omega, by omega, fun h => m3 (hbnd h)⟩
    simp only [run_loop]
    split
    · exact ⟨le_refl _, by simp, fun h => h⟩
    · rename_i hlim
      split
      · exact step _ 0 (by simp) (by simp) (fun h => h)
      · split
        · split
          · exact step _ 1 (by simp) (by simp) (fun h => by simp; omega)
          · split
            · exact step _ 1 (by simp) (by simp) (fun h => by simp; omega)
            · exact step _ 1 (by simp) (by simp) (fun h => by simp; omega)
        · split
          · split
            · exact step _ 1 (by simp) (by simp) (fun h => by simp; omega)
            · exact step _ 1 (by simp) (by simp) (fun h => by simp; omega)
          · split
            · split
              · split
                · exact step _ 1 (by simp) (by simp) (fun h => by simp; omega)
                · exact step _ 1 (by simp) (by simp) (fun h => by simp; omega)
              · exact step _ 1 (by simp) (by simp) (fun h => by simp; omega)
            · split
              · split
                · exact step _ 1 (by simp) (by simp) (fun h => by simp; omega)
                · exact step _ 1 (by simp) (by simp) (fun h => by simp; omega)
              · split
                · exact ⟨le_refl _, by simp, fun h => h⟩
                · exact ⟨le_refl _, by simp, fun h => h⟩

/-- Number of state persists in a trace. -/
def countSW (events : List Event) : Nat :=
  events.countP (fun e => match e with | .stateWrite _ => true | _ => false)

@[simp] theorem countSW_nil : countSW [] = 0 := rfl

@[simp] theorem countSW_append (a b : List Event) :
    countSW (a ++ b) = countSW a + countSW b :=
  List.countP_append _ _ _

@[simp] theorem countSW_stateWrite_cons (s : RunState) (l : List Event) :
    countSW (.stateWrite s :: l) = countSW l + 1 := by
  simp [countSW, List.countP_cons]

@[simp] theorem countSW_memWrite_cons (t m : String) (l : List Event) :
    countSW (.memWrite t m :: l) = countSW l := by
  simp [countSW, List.countP_cons]

@[simp] theorem countSW_body_cons (p : String) (l : List Event) :
    countSW (.body p :: l) = countSW l := by
  simp [countSW, List.countP_cons]

/-- The six phase values the ladder recognises. -/
def phaseOK (p : String) : Prop :=
  p = "INGEST" ∨ p = "PLAN" ∨ p = "IMPLEMENT" ∨ p = "VERIFY" ∨ p = "REPAIR" ∨
    p = "DONE"

/-- From any recognised phase: a halting run writes exactly one memory
lesson and at least one state persist beyond those already in the trace,
and a run that merely exhausts its fuel writes no lesson. -/
theorem run_loop_mem (env : Env) (task : Task) (ws : String) (fuel : Nat) :
    ∀ ls : LoopState, phaseOK ls.state.phase →
    (((run_loop env task ws fuel ls).2 = true →
        countMem (run_loop env task ws fuel ls).1.events = countMem ls.events + 1 ∧
          countSW ls.events + 1 ≤ countSW (run_loop env task ws fuel ls).1.events) ∧
      ((run_loop env task ws fuel ls).2 = false →
        countMem (run_loop env task ws fuel ls).1.events = countMem ls.events)) := by
  induction fuel with
  | zero =>
    intro ls _
    exact ⟨fun h => by simp [run_loop] at h, fun _ => by simp [run_loop]⟩
  | succ fuel ih =>
    intro ls hph
    have step : ∀ ls' : LoopState, phaseOK ls'.state.phase →
        countMem ls'.events = countMem ls.events →
        countSW ls.events ≤ countSW ls'.events →
        (((run_loop env task ws fuel ls').2 = true →
            countMem (run_loop env task ws fuel ls').1.events = countMem ls.events + 1 ∧
              countSW ls.events + 1 ≤ countSW (run_loop env task ws fuel ls').1.events) ∧
          ((run_loop env task ws fuel ls').2 = false →
            countMem (run_loop env task ws fuel ls').1.events = countMem ls.events)) := by
      intro ls' hph' hm hs
      obtain ⟨i1, i2⟩ := ih ls' hph'
      refine ⟨fun h => ?_, fun h => ?_⟩
      · obtain ⟨a, b⟩ := i1 h
        exact ⟨by omega, by omega⟩
      · rw [i2 h, hm]
    simp only [run_loop]
    split
    · exact ⟨fun _ => by simp, fun h => by simp at h⟩
    · split
      · exact step _ (by simp [phaseOK]) (by simp) (by simp)
      · split
        · split
          · exact step _ (by simp [phaseOK]) (by simp) (by simp)
          · split
            · exact step _ (by simp [phaseOK]) (by simp) (by simp)
            · exact step _ (by simp [phaseOK]) (by simp) (by simp)
        · split
          · split
            · exact step _ (by simp [phaseOK]) (by simp) (by simp)
            · exact step _ (by simp [phaseOK]) (by simp) (by simp)
          · split
            · split
              · split
                · exact step _ (by simp [phaseOK]) (by simp) (by simp)
                · exact step _ (by simp [phaseOK]) (by simp) (by simp)
              · exact step _ (by simp [phaseOK]) (by simp) (by simp)
            · split
              · split
                · exact step _ (by simp [phaseOK]) (by simp) (by simp)
                · exact step _ (by simp [phaseOK]) (by simp) (by simp)
              · split
                · exact ⟨fun _ => by simp, fun h => by simp at h⟩
                · rename_i h1 h2 h3 h4 h5 h6
                  rcases hph with h | h | h | h | h | h <;> contradiction

/-- C9: the iteration counter never decreases, grows by exactly one per
executed phase body (the body events of the trace), does not move on the
INGEST pass-through or on the DONE epilogue, and moves by exactly one on
a single step of each working phase below the limit. -/
theorem iteration_monotone_per_body (env : Env) (task : Task) (ws : String)
    (fuel : Nat) (ls : LoopState)
    (hlt : ls.state.iteration < effective_iteration_limit task.constraints) :
    ls.state.iteration ≤ (run_loop env task ws fuel ls).1.state.iteration ∧
      countBody (run_loop env task ws fuel ls).1.events + ls.state.iteration =
        countBody ls.events + (run_loop env task ws fuel ls).1.state.iteration ∧
      (ls.state.phase = "INGEST" ∨ ls.state.phase = "DONE" →
        (run_loop env task ws 1 ls).1.state.iteration = ls.state.iteration ∧
          countBody (run_loop env task ws 1 ls).1.events = countBody ls.events) ∧
      (ls.state.phase = "PLAN" ∨ ls.state.phase = "IMPLEMENT" ∨
          ls.state.phase = "VERIFY" ∨ ls.state.phase = "REPAIR" →
        (run_loop env task ws 1 ls).1.state.iteration = ls.state.iteration + 1 ∧
          countBody (run_loop env task ws 1 ls).1.events = countBody ls.events + 1) := by
  obtain ⟨m1, m2, _⟩ := run_loop_invariants env task ws fuel ls
  have hnl : ¬ ls.state.iteration ≥ effective_iteration_limit task.constraints := by
    omega
  refine ⟨m1, m2, fun hp => ?_, fun hp => ?_⟩
  · rcases hp with hp | hp <;>
      (simp only [run_loop, hp, hnl]
       simp [run_loop])
  · rcases hp with hp | hp | hp | hp <;>
      (simp only [run_loop, hp, hnl]
       norm_num
       repeat' split
       all_goals simp_all [run_loop])

theorem iteration_monotone_per_body_witness :
    (initLoop [] ⟨[], []⟩).state.iteration ≤
        (run_loop env0 task0 "/ws" 10 (initLoop [] ⟨[], []⟩)).1.state.iteration ∧
      countBody (run_loop env0 task0 "/ws" 10 (initLoop [] ⟨[], []⟩)).1.events +
          (initLoop [] ⟨[], []⟩).state.iteration =
        countBody (initLoop [] ⟨[], []⟩).events +
          (run_loop env0 task0 "/ws" 10 (initLoop [] ⟨[], []⟩)).1.state.iteration ∧
      ((initLoop [] ⟨[], []⟩).state.phase = "INGEST" ∨
          (initLoop [] ⟨[], []⟩).state.phase = "DONE" →
        (run_loop env0 task0 "/ws" 1 (initLoop [] ⟨[], []⟩)).1.state.iteration =
            (initLoop [] ⟨[], []⟩).state.iteration ∧
          countBody (run_loop env0 task0 "/ws" 1 (initLoop [] ⟨[], []⟩)).1.events =
            countBody (initLoop [] ⟨[], []⟩).events) ∧
      ((initLoop [] ⟨[], []⟩).state.phase = "PLAN" ∨
          (initLoop [] ⟨[], []⟩).state.phase = "IMPLEMENT" ∨
          (initLoop [] ⟨[], []⟩).state.phase = "VERIFY" ∨
          (initLoop [] ⟨[], []⟩).state.phase = "REPAIR" →
        (run_loop env0 task0 "/ws" 1 (initLoop [] ⟨[], []⟩)).1.state.iteration =
            (initLoop [] ⟨[], []⟩).state.iteration + 1 ∧
          countBody (run_loop env0 task0 "/ws" 1 (initLoop [] ⟨[], []⟩)).1.events =
            countBody (initLoop [] ⟨[], []⟩).events + 1) :=
  iteration_monotone_per_body env0 task0 "/ws" 10 (initLoop [] ⟨[], []⟩) (by decide)

/-- The task of the C3 counterexample: iteration_limit declared as 0. -/
def taskN0 : Task := ⟨"t", "goal", ⟨none, some 0, none⟩⟩

/-- C3 counterexample: with iteration_limit = 0 the or-chain treats the
zero as missing and falls back to 8, so the run does NOT stop before the
first phase body: it executes three bodies and ends with no_test_cmd,
not with the iteration_limit tag. -/
theorem iteration_limit_zero_not_immediate :
    effective_iteration_limit ⟨none, some 0, none⟩ = 8 ∧
      (run_loop env0 taskN0 "/ws" 10 (initLoop [] ⟨[], []⟩)).2 = true ∧
      countBody (run_loop env0 taskN0 "/ws" 10 (initLoop [] ⟨[], []⟩)).1.events = 3 ∧
      (run_loop env0 taskN0 "/ws" 10 (initLoop [] ⟨[], []⟩)).1.state.last_result =
        some "no_test_cmd" := by
  refine ⟨by rfl, by decide, by decide, by decide⟩

/-- C3 as amended: at most the effective limit many phase bodies execute
in any run from the initial state; the effective limit is the declared
iteration_limit when nonzero, falls back (through Python or-truthiness)
to time_budget_iters and then to 8 when the declaration is missing or
zero; and whenever the counter has reached the limit the next step
force-halts in DONE with the iteration_limit tag without executing a
body. -/
theorem iteration_limit_bounds_bodies (env : Env) (task : Task) (ws : String)
    (fuel : Nat) (fs : FS) (mem : MemoryStore) (ls : LoopState)
    (tc : Option String) (n : Nat)
    (hcut : ls.state.iteration ≥ effective_iteration_limit task.constraints) :
    countBody (run_loop env task ws fuel (initLoop fs mem)).1.events ≤
        effective_iteration_limit task.constraints ∧
      effective_iteration_limit ⟨tc, none, none⟩ = 8 ∧
      effective_iteration_limit ⟨tc, some (n + 1), none⟩ = n + 1 ∧
      (run_loop env task ws (fuel + 1) ls).2 = true ∧
      (run_loop env task ws (fuel + 1) ls).1.state.phase = "DONE" ∧
      (run_loop env task ws (fuel + 1) ls).1.state.last_result =
        some "iteration_limit" ∧
      countBody (run_loop env task ws (fuel + 1) ls).1.events = countBody ls.events := by
  obtain ⟨m1, m2, m3⟩ := run_loop_invariants env task ws fuel (initLoop fs mem)
  have hb : countBody (run_loop env task ws fuel (initLoop fs mem)).1.events ≤
      effective_iteration_limit task.constraints := by
    have hinit : (initLoop fs mem).state.iteration = 0 := rfl
    have hev : countBody (initLoop fs mem).events = 0 := rfl
    have := m3 (by omega)
    omega
  refine ⟨hb, by rfl, by simp [effective_iteration_limit, orFalsy], ?_⟩
  simp only [run_loop, if_pos hcut]
  simp

/-- A loop state whose counter already sits at the default limit. -/
def doneAtLimitLoop : LoopState :=
  { initLoop [] ⟨[], []⟩ with state := { initRunState with iteration := 8 } }

theorem iteration_limit_bounds_bodies_witness :
    countBody (run_loop env0 task0 "/ws" 10 (initLoop [] ⟨[], []⟩)).1.events ≤
        effective_iteration_limit task0.constraints ∧
      effective_iteration_limit ⟨none, none, none⟩ = 8 ∧
      effective_iteration_limit ⟨none, some (1 + 1), none⟩ = 1 + 1 ∧
      (run_loop env0 task0 "/ws" 11 doneAtLimitLoop).2 = true ∧
      (run_loop env0 task0 "/ws" 11 doneAtLimitLoop).1.state.phase = "DONE" ∧
      (run_loop env0 task0 "/ws" 11 doneAtLimitLoop).1.state.last_result =
        some "iteration_limit" ∧
      countBody (run_loop env0 task0 "/ws" 11 doneAtLimitLoop).1.events =
        countBody doneAtLimitLoop.events :=
  iteration_limit_bounds_bodies env0 task0 "/ws" 10 [] ⟨[], []⟩ doneAtLimitLoop
    none 1 (by decide)

/-- A loop state resumed with an unrecognised phase value. -/
def limboLoop : LoopState :=
  { initLoop [] ⟨[], []⟩ with state := { initRunState with phase := "LIMBO" } }

/-- C7 counterexample: a run terminating through the unrecognised-phase
fallback persists state but writes NO memory lesson, so not every
terminal transition writes exactly one lesson. -/
theorem unknown_phase_writes_no_lesson :
    (run_loop env0 task0 "/ws" 1 limboLoop).2 = true ∧
      countMem (run_loop env0 task0 "/ws" 1 limboLoop).1.events = 0 ∧
      countSW (run_loop env0 task0 "/ws" 1 limboLoop).1.events = 1 ∧
      (run_loop env0 task0 "/ws" 1 limboLoop).1.state.phase = "DONE" ∧
      (run_loop env0 task0 "/ws" 1 limboLoop).1.state.last_result =
        some "unknown_phase" := by
  refine ⟨by decide, by decide, by decide, by decide, by decide⟩

/-- C7 as amended: a run halting from any recognised phase — DONE reached
through the transition table or the iteration-limit cutoff — writes
exactly one memory lesson and persists state at least once more; the
unrecognised-phase fallback instead persists state once and writes no
lesson. -/
theorem memory_lesson_on_termination (env : Env) (task : Task) (ws : String)
    (fuel : Nat) (ls : LoopState) :
    (phaseOK ls.state.phase → (run_loop env task ws fuel ls).2 = true →
        countMem (run_loop env task ws fuel ls).1.events = countMem ls.events + 1 ∧
          countSW ls.events + 1 ≤ countSW (run_loop env task ws fuel ls).1.events) ∧
      (¬ phaseOK ls.state.phase →
        ls.state.iteration < effective_iteration_limit task.constraints →
        (run_loop env task ws (fuel + 1) ls).2 = true ∧
          countMem (run_loop env task ws (fuel + 1) ls).1.events = countMem ls.events ∧
          countSW (run_loop env task ws (fuel + 1) ls).1.events = countSW ls.events + 1 ∧
          (run_loop env task ws (fuel + 1) ls).1.state.last_result =
            some "unknown_phase") := by
  constructor
  · intro hph hh
    exact (run_loop_mem env task ws fuel ls hph).1 hh
  · intro hph hlt
    have hnl : ¬ ls.state.iteration ≥ effective_iteration_limit task.constraints := by
      omega
    have h1 : ¬ ls.state.phase = "INGEST" := fun h => hph (Or.inl h)
    have h2 : ¬ ls.state.phase = "PLAN" := fun h => hph (Or.inr (Or.inl h))
    have h3 : ¬ ls.state.phase = "IMPLEMENT" := fun h =>
      hph (Or.inr (Or.inr (Or.inl h)))
    have h4 : ¬ ls.state.phase = "VERIFY" := fun h =>
      hph (Or.inr (Or.inr (Or.inr (Or.inl h))))
    have h5 : ¬ ls.state.phase = "REPAIR" := fun h =>
      hph (Or.inr (Or.inr (Or.inr (Or.inr (Or.inl h)))))
    have h6 : ¬ ls.state.phase = "DONE" := fun h =>
      hph (Or.inr (Or.inr (Or.inr (Or.inr (Or.inr h)))))
    simp only [run_loop, hnl, h1, h2, h3, h4, h5, h6]
    simp

theorem memory_lesson_on_termination_witness :
    countMem (run_loop env0 task0 "/ws" 10 (initLoop [] ⟨[], []⟩)).1.events =
        countMem (initLoop [] ⟨[], []⟩).events + 1 ∧
      countSW (initLoop [] ⟨[], []⟩).events + 1 ≤
        countSW (run_loop env0 task0 "/ws" 10 (initLoop [] ⟨[], []⟩)).1.events :=
  (memory_lesson_on_termination env0 task0 "/ws" 10 (initLoop [] ⟨[], []⟩)).1
    (Or.inl rfl) (by decide)

/-- C4: a response that fails to parse as the exact ActionResponse shape
raises nothing: the turn yields the invalid_json placeholder with an
empty action list, and the PLAN step then routes to REPAIR with
plan_failed exactly as a failed tool call would, leaving the workspace
untouched. -/
theorem invalid_json_routes_to_repair (text e : String)
    (env : Env) (task : Task) (ws : String) (ls : LoopState)
    (hparse : parse_action_response text = .error e)
    (hphase : ls.state.phase = "PLAN")
    (hresp : env.respond ls.turns = text)
    (hlt : ls.state.iteration < effective_iteration_limit task.constraints) :
    model_turn text = (⟨"invalid_json", []⟩, some e) ∧
      (run_loop env task ws 1 ls).1.state.phase = "REPAIR" ∧
      (run_loop env task ws 1 ls).1.state.last_result = some "plan_failed" ∧
      (run_loop env task ws 1 ls).1.fs = ls.fs := by
  have hmt : model_turn text = (⟨"invalid_json", []⟩, some e) := by
    unfold model_turn
    rw [hparse]
  have hnl : ¬ ls.state.iteration ≥ effective_iteration_limit task.constraints := by
    omega
  refine ⟨hmt, ?_⟩
  simp only [run_loop, hphase, hnl]
  norm_num
  rw [hresp, hmt]
  simp [execute_actions, has_errors, errObj, run_loop]

/-- The PLAN-phase loop state of the C4 scenario. -/
def planLoop : LoopState :=
  { initLoop [] ⟨[], []⟩ with state := { initRunState with phase := "PLAN" } }

/-- The environment whose model wraps valid JSON in prose. -/
def proseEnv : Env :=
  ⟨fun _ => "Here is the plan: \x7b\"thought\": \"x\", \"actions\": []\x7d",
    spawnNull, "2026-01-01"⟩

theorem invalid_json_routes_to_repair_witness :
    model_turn "Here is the plan: \x7b\"thought\": \"x\", \"actions\": []\x7d" =
        (⟨"invalid_json", []⟩, some "Invalid JSON from model") ∧
      (run_loop proseEnv task0 "/ws" 1 planLoop).1.state.phase = "REPAIR" ∧
      (run_loop proseEnv task0 "/ws" 1 planLoop).1.state.last_result =
        some "plan_failed" ∧
      (run_loop proseEnv task0 "/ws" 1 planLoop).1.fs = planLoop.fs :=
  invalid_json_routes_to_repair
    "Here is the plan: \x7b\"thought\": \"x\", \"actions\": []\x7d"
    "Invalid JSON from model" proseEnv task0 "/ws" planLoop (by rfl) (by rfl)
    (by rfl) (by decide)

/-- C6: a write_file whose path the validator recognises as a test file
and whose content has no pytest-style test function is rejected before
the sandbox write: executing it records the validation error, touches no
path, and leaves the workspace tree unchanged. -/
theorem test_file_without_test_function_rejected
    (gp : Bool) (path content ws : String) (fs : FS) (spawn : SpawnOracle)
    (hne : pyStrip path ≠ "") (hne2 : pyStrip path ≠ "...")
    (hini : pyEndsWith (pyLower (pyReplaceChar path '\\' '/')) "pytest.ini" = false)
    (htest : pyIn "/test_" (pyLower (pyReplaceChar path '\\' '/')) = true ∨
      pyStartsWith (pyLower (pyReplaceChar path '\\' '/')) "test_" = true)
    (hnodef : pyIn "def test_" content = false) :
    validate_action_inputs gp (.write_file path content) =
        some "test file must include pytest-style test functions" ∧
      execute_actions ws gp spawn [.write_file path content] fs =
        ([errObj "test file must include pytest-style test functions"], [], fs) := by
  have hval : validate_action_inputs gp (.write_file path content) =
      some "test file must include pytest-style test functions" := by
    unfold validate_action_inputs
    dsimp only
    rw [if_neg (by simp [hne, hne2])]
    rw [if_neg (by simp [hini])]
    rw [if_pos (by rcases htest with h | h <;> simp [h])]
    rw [if_pos (by simp [hnodef])]
  refine ⟨hval, ?_⟩
  simp [execute_actions, execute_one, hval]

theorem test_file_without_test_function_rejected_witness :
    validate_action_inputs false (.write_file "test_foo.py" "print(1)") =
        some "test file must include pytest-style test functions" ∧
      execute_actions "/ws" false spawnNull
          [.write_file "test_foo.py" "print(1)"] [] =
        ([errObj "test file must include pytest-style test functions"], [], []) :=
  test_file_without_test_function_rejected false "test_foo.py" "print(1)" "/ws"
    [] spawnNull (by decide) (by decide) (by rfl) (Or.inr (by rfl)) (by rfl)

end GhostAgent
